import Mathlib

/-!
Verification of the IPEDS processing pipeline (shallow embedding).

The repository ingests IPEDS survey CSV extracts, cleans them per domain
(directory, admissions, enrollment, finance) and left-joins them into one
table keyed by `UNITID`.  This file embeds the data model and the
operations of `scripts/data_processor_base.py`, `scripts/process_admissions.py`,
`scripts/process_finance.py` and `scripts/master_processor.py` as executable
Lean definitions and proves properties of them.

Cell values are modelled by `Val`: a pandas cell is either missing (`NaN`
or `None`, both modelled as `Val.na`), a finite number, a string, a
boolean, or one of the two IEEE infinities produced by division by zero.
Finite numbers are modelled as exact fractions (`Flt`): an integer
numerator with a positive natural denominator, not normalised, compared by
cross multiplication where the code compares floats.  `Flt.toRat` maps a
fraction to the rational it denotes.
-/

namespace IPEDS

/-- A finite numeric cell value: an exact (unnormalised) fraction with a
positive denominator.  Stands in for the Python floats of the source. -/
structure Flt where
  n : ℤ
  d : ℕ+
deriving DecidableEq, Repr

/-- The fraction denoting the integer `z`. -/
def fl (z : ℤ) : Flt := ⟨z, 1⟩

/-- The rational number a fraction denotes. -/
def Flt.toRat (a : Flt) : ℚ := (a.n : ℚ) / ((a.d : ℕ) : ℚ)

def Flt.add (a b : Flt) : Flt := ⟨a.n * (b.d : ℕ) + b.n * (a.d : ℕ), a.d * b.d⟩

def Flt.sub (a b : Flt) : Flt := ⟨a.n * (b.d : ℕ) - b.n * (a.d : ℕ), a.d * b.d⟩

def Flt.mul (a b : Flt) : Flt := ⟨a.n * b.n, a.d * b.d⟩

/-- Division of fractions; meaningful only when `b` is nonzero (the callers
below test for zero first, as the source does). -/
def Flt.div (a b : Flt) : Flt :=
  ⟨a.n * (b.d : ℕ) * b.n.sign,
    a.d * ⟨max b.n.natAbs 1, Nat.lt_of_lt_of_le Nat.one_pos (Nat.le_max_right _ _)⟩⟩

/-- `a ≤ b` on fractions, by cross multiplication (denominators positive). -/
def Flt.le (a b : Flt) : Prop := a.n * ((b.d : ℕ) : ℤ) ≤ b.n * ((a.d : ℕ) : ℤ)

/-- `a < b` on fractions, by cross multiplication (denominators positive). -/
def Flt.lt (a b : Flt) : Prop := a.n * ((b.d : ℕ) : ℤ) < b.n * ((a.d : ℕ) : ℤ)

instance (a b : Flt) : Decidable (Flt.le a b) := by unfold Flt.le; infer_instance

instance (a b : Flt) : Decidable (Flt.lt a b) := by unfold Flt.lt; infer_instance

/-- Floor of a fraction, as an integer. -/
def Flt.floor (a : Flt) : ℤ := Int.fdiv a.n ((a.d : ℕ) : ℤ)

/-- Round-half-to-even on a fraction, as numpy/pandas round to integer does. -/
def Flt.rnd (a : Flt) : ℤ :=
  let f := a.floor
  let r : ℤ := 2 * (a.n - f * ((a.d : ℕ) : ℤ))
  if r < ((a.d : ℕ) : ℤ) then f
  else if ((a.d : ℕ) : ℤ) < r then f + 1
  else if Even f then f else f + 1

/-- `Series.round(k)`: round to `k` decimal places, half to even. -/
def Flt.roundTo (a : Flt) (k : ℕ) : Flt :=
  ⟨Flt.rnd ⟨a.n * (10 ^ k : ℕ), a.d⟩, ⟨10 ^ k, by positivity⟩⟩


/-- A pandas cell value.  `na` stands for both `NaN` and `None`; `pinf` and
`ninf` are the IEEE infinities produced by float division by zero.  Text
cells are exact; numeric cells are exact fractions (the source only ever
adds, subtracts, multiplies, divides and rounds, so float rounding error is
not modelled). -/
inductive Val where
  | na
  | num (x : Flt)
  | str (s : String)
  | bool (b : Bool)
  | pinf
  | ninf
deriving DecidableEq, Repr

/-- Coercion applied by pandas before arithmetic: booleans count as 0/1,
everything else is left alone. -/
def Val.numClass (v : Val) : Val :=
  match v with
  | .bool b => .num (fl (if b then 1 else 0))
  | x => x

/-- `pd.isna` on a cell. -/
def Val.isna (v : Val) : Bool :=
  match v with
  | .na => true
  | _ => false

/-- Elementwise `+` of pandas series (`NaN` propagates; text gives `NaN`,
where pandas would raise, a path the source never takes). -/
def Val.addV (a b : Val) : Val :=
  match a.numClass, b.numClass with
  | .num x, .num y => .num (x.add y)
  | .pinf, .ninf => .na
  | .ninf, .pinf => .na
  | .pinf, .num _ => .pinf
  | .num _, .pinf => .pinf
  | .pinf, .pinf => .pinf
  | .ninf, .num _ => .ninf
  | .num _, .ninf => .ninf
  | .ninf, .ninf => .ninf
  | _, _ => .na

/-- Elementwise `-` of pandas series. -/
def Val.subV (a b : Val) : Val :=
  match a.numClass, b.numClass with
  | .num x, .num y => .num (x.sub y)
  | .pinf, .pinf => .na
  | .ninf, .ninf => .na
  | .pinf, .num _ => .pinf
  | .pinf, .ninf => .pinf
  | .num _, .ninf => .pinf
  | .ninf, .num _ => .ninf
  | .ninf, .pinf => .ninf
  | .num _, .pinf => .ninf
  | _, _ => .na

/-- Elementwise `*` of pandas series (`inf * 0 = NaN`, as in IEEE). -/
def Val.mulV (a b : Val) : Val :=
  match a.numClass, b.numClass with
  | .num x, .num y => .num (x.mul y)
  | .pinf, .pinf => .pinf
  | .pinf, .ninf => .ninf
  | .ninf, .pinf => .ninf
  | .ninf, .ninf => .pinf
  | .pinf, .num y => if 0 < y.n then .pinf else if y.n < 0 then .ninf else .na
  | .num x, .pinf => if 0 < x.n then .pinf else if x.n < 0 then .ninf else .na
  | .ninf, .num y => if 0 < y.n then .ninf else if y.n < 0 then .pinf else .na
  | .num x, .ninf => if 0 < x.n then .ninf else if x.n < 0 then .pinf else .na
  | _, _ => .na

/-- Elementwise `/` of pandas series: IEEE semantics, so a nonzero value
divided by zero is a signed infinity and `0/0` is `NaN`. -/
def Val.divV (a b : Val) : Val :=
  match a.numClass, b.numClass with
  | .num x, .num y =>
      if y.n = 0 then
        if x.n = 0 then .na else if 0 < x.n then .pinf else .ninf
      else .num (x.div y)
  | .num _, .pinf => .num (fl 0)
  | .num _, .ninf => .num (fl 0)
  | .pinf, .num y => if y.n < 0 then .ninf else .pinf
  | .ninf, .num y => if y.n < 0 then .pinf else .ninf
  | _, _ => .na

/-- Elementwise comparison `series ≤ c` (`NaN` compares false). -/
def Val.leC (v : Val) (c : Flt) : Bool :=
  match v.numClass with
  | .num x => decide (x.le c)
  | .ninf => true
  | _ => false

/-- Elementwise comparison `series < c` (`NaN` compares false). -/
def Val.ltC (v : Val) (c : Flt) : Bool :=
  match v.numClass with
  | .num x => decide (x.lt c)
  | .ninf => true
  | _ => false

/-- Elementwise comparison `series ≥ c` (`NaN` compares false). -/
def Val.geC (v : Val) (c : Flt) : Bool :=
  match v.numClass with
  | .num x => decide (c.le x)
  | .pinf => true
  | _ => false

/-- Elementwise comparison `series > c` (`NaN` compares false). -/
def Val.gtC (v : Val) (c : Flt) : Bool :=
  match v.numClass with
  | .num x => decide (c.lt x)
  | .pinf => true
  | _ => false

/-- `Series.clip(lo, hi)`: `NaN` stays `NaN`, infinities go to the bounds. -/
def Val.clip (lo hi : Flt) (v : Val) : Val :=
  match v.numClass with
  | .num x => .num (if x.lt lo then lo else if hi.lt x then hi else x)
  | .pinf => .num hi
  | .ninf => .num lo
  | _ => .na

/-- `Series.fillna(c)` on one cell. -/
def Val.fillna (v : Val) (c : Flt) : Val :=
  match v with
  | .na => .num c
  | x => x

/-- `Series.round(k)` on one cell (`NaN` and infinities unchanged). -/
def Val.roundV (k : ℕ) (v : Val) : Val :=
  match v with
  | .num x => .num (x.roundTo k)
  | x => x

/-- Text of a fraction, for `astype(str)` (digit-for-digit float formatting
is not reproduced: the cleaning code only compares against the literals
"", "nan" and "None", which no numeric rendering collides with). -/
def fltStr (x : Flt) : String :=
  if (x.d : ℕ) = 1 then toString x.n ++ ".0"
  else toString x.n ++ " over " ++ toString (x.d : ℕ)

/-- `astype(str)` on one cell, as Python renders it. -/
def Val.pyStr (v : Val) : String :=
  match v with
  | .na => "nan"
  | .num x => fltStr x
  | .str s => s
  | .bool b => if b then "True" else "False"
  | .pinf => "inf"
  | .ninf => "-inf"

/-- A row: an association list from column name to cell value.  A column
missing from the row reads as `NaN`. -/
abbrev Row := List (String × Val)

/-- Read one cell of a row. -/
def getCell (r : Row) (c : String) : Val := (r.lookup c).getD Val.na

/-- Write one cell of a row. -/
def setCell (r : Row) (c : String) (v : Val) : Row :=
  r.filter (fun p => p.1 != c) ++ [(c, v)]

/-- A DataFrame: the list of column names and the rows. -/
structure Table where
  cols : List String
  rows : List Row
deriving DecidableEq, Repr

/-- `pd.DataFrame()`: the empty frame. -/
def Table.empty : Table := ⟨[], []⟩

/-- Register a column name, keeping the existing order. -/
def addColName (cs : List String) (c : String) : List String :=
  if c ∈ cs then cs else cs ++ [c]

/-- `df[c] = f(row)`: add or overwrite a column computed per row. -/
def Table.setCol (t : Table) (c : String) (f : Row → Val) : Table :=
  ⟨addColName t.cols c, t.rows.map (fun r => setCell r c (f r))⟩

/-- `df[c] = v` for a scalar `v`. -/
def Table.setColConst (t : Table) (c : String) (v : Val) : Table :=
  t.setCol c (fun _ => v)

/-- `df[cs]`: keep the listed columns only. -/
def Table.selectCols (t : Table) (cs : List String) : Table :=
  ⟨cs, t.rows.map (fun r => r.filter (fun p => cs.contains p.1))⟩

/-- `len(df)`. -/
def Table.rowCount (t : Table) : ℕ := t.rows.length

/-- The `UNITID` cell of a row. -/
def keyOf (r : Row) : Val := getCell r "UNITID"

/-- The `UNITID` column as a list. -/
def Table.keyVals (t : Table) : List Val := t.rows.map keyOf

/-- `df["UNITID"].nunique()`: distinct non-missing keys. -/
def Table.nuniqueKeys (t : Table) : ℕ :=
  ((t.keyVals.filter (fun v => !v.isna)).dedup).length

/-- `df["UNITID"].duplicated().sum()`: rows whose key already occurred
(pandas counts repeated `NaN` keys as duplicates). -/
def Table.dupKeyCount (t : Table) : ℕ :=
  t.rows.length - t.keyVals.dedup.length

/-- Keep the first row for each key value, in order. -/
def dedupRowsFirst : List Row → List Val → List Row
  | [], _ => []
  | r :: rs, seen =>
      if keyOf r ∈ seen then dedupRowsFirst rs seen
      else r :: dedupRowsFirst rs (keyOf r :: seen)

/-- `df.drop_duplicates(subset=["UNITID"], keep="first")`. -/
def Table.dedupByKey (t : Table) : Table := ⟨t.cols, dedupRowsFirst t.rows []⟩

/-- The rows a left join produces for one left row: every matching right
row, or the bare left row when nothing matches.  `NaN` keys never match.
Overlapping non-join columns keep the left value (the source tables only
share `UNITID`, so pandas suffixing is not modelled). -/
def joinOneRow (lcols : List String) (rrows : List Row) (lr : Row) : List Row :=
  let k := keyOf lr
  let ms := if k.isna then [] else rrows.filter (fun rr => keyOf rr == k)
  match ms with
  | [] => [lr]
  | _ => ms.map (fun rr => lr ++ rr.filter (fun p => !(lcols.contains p.1)))

/-- `left.merge(right, on="UNITID", how="left")`. -/
def Table.leftJoin (l r : Table) : Table :=
  ⟨l.cols ++ r.cols.filter (fun c => !(l.cols.contains c)),
   (l.rows.map (joinOneRow l.cols r.rows)).flatten⟩

/-! ### Field Cleaner (`data_processor_base.IPEDSProcessor`) -/

/-- The IPEDS sentinel codes for missing data
(`IPEDSProcessor.clean_numeric_columns`). -/
def nullCodes : List String := [".", "..", "\x7b", "†", "‡", "§", "¶"]

/-- Replace an IPEDS null code by `NaN` (`Series.replace(null_codes, np.nan)`). -/
def replaceNullCodes (v : Val) : Val :=
  match v with
  | .str s => if nullCodes.contains s then .na else .str s
  | x => x

/-- Digits of a decimal string as a natural number (empty list reads as 0;
the caller rejects the empty-on-both-sides case). -/
def digitsToNat : List Char → Option ℕ
  | [] => some 0
  | c :: cs =>
      if c.isDigit then
        match digitsToNat cs with
        | some v => some ((c.toNat - 48) * 10 ^ cs.length + v)
        | none => none
      else none

/-- Parse a decimal numeral with optional sign and fraction part, as
`pd.to_numeric` accepts it (surrounding whitespace tolerated). -/
def parseNum (s : String) : Option Flt :=
  let cs := s.trim.toList
  let (sg, cs2) : ℤ × List Char :=
    match cs with
    | '-' :: t => (-1, t)
    | '+' :: t => (1, t)
    | t => (1, t)
  let ip := cs2.takeWhile (fun c => c != '.')
  let rest := cs2.dropWhile (fun c => c != '.')
  let fp : Option (List Char) :=
    match rest with
    | [] => some []
    | _ :: t => if t.contains '.' then none else some t
  match fp with
  | none => none
  | some f =>
      if ip.isEmpty && f.isEmpty then none
      else
        match digitsToNat ip, digitsToNat f with
        | some a, some b =>
            some ⟨sg * ((a : ℤ) * 10 ^ f.length + (b : ℤ)), ⟨10 ^ f.length, by positivity⟩⟩
        | _, _ => none

/-- `pd.to_numeric(series, errors="coerce")` on one cell: numbers pass
through, parseable text becomes a number, anything else becomes `NaN`. -/
def toNumericCoerce (v : Val) : Val :=
  match v with
  | .str s =>
      match parseNum s with
      | some x => .num x
      | none => .na
  | .bool b => .num (fl (if b then 1 else 0))
  | x => x

/-- Clean one numeric column: null-code substitution then numeric
coercion, applied only when the column exists. -/
def cleanNumericCol (t : Table) (c : String) : Table :=
  if t.cols.contains c then
    t.setCol c (fun r => toNumericCoerce (replaceNullCodes (getCell r c)))
  else t

/-- `IPEDSProcessor.clean_numeric_columns` (the pure value it produces). -/
def cleanNumericColumns (t : Table) (columns : List String) : Table :=
  columns.foldl cleanNumericCol t

/-- Clean one text cell: `astype(str).str.strip()` then map `""`, `"nan"`
and `"None"` to `NaN`. -/
def cleanTextCell (v : Val) : Val :=
  let s := v.pyStr.trim
  if s == "" || s == "nan" || s == "None" then .na else .str s

/-- Clean one text column, applied only when the column exists. -/
def cleanTextCol (t : Table) (c : String) : Table :=
  if t.cols.contains c then t.setCol c (fun r => cleanTextCell (getCell r c)) else t

/-- `IPEDSProcessor.clean_text_columns` (the pure value it produces). -/
def cleanTextColumns (t : Table) (columns : List String) : Table :=
  columns.foldl cleanTextCol t

/-- A store of DataFrames, for stating that the cleaners mutate only the
fresh copy they allocate: a Python name for a frame is an index into the
store. -/
abbrev Heap := List Table

/-- `clean_numeric_columns` with the mutation made explicit: `df.copy()`
allocates a fresh slot, every per-column assignment writes that slot, and
the result is the new slot's index. -/
def cleanNumericColumnsH (h : Heap) (i : ℕ) (columns : List String) : Heap × ℕ :=
  let j := h.length
  let h1 := h ++ [h.getD i Table.empty]
  let h2 := columns.foldl (fun hh c => hh.set j (cleanNumericCol (hh.getD j Table.empty) c)) h1
  (h2, j)

/-- `clean_text_columns` with the mutation made explicit. -/
def cleanTextColumnsH (h : Heap) (i : ℕ) (columns : List String) : Heap × ℕ :=
  let j := h.length
  let h1 := h ++ [h.getD i Table.empty]
  let h2 := columns.foldl (fun hh c => hh.set j (cleanTextCol (hh.getD j Table.empty) c)) h1
  (h2, j)

/-! ### Dataset Validator (`IPEDSProcessor.validate_data`) -/

/-- The four data-quality flags of `IPEDSProcessor.validate_data`. -/
structure QualityFlags where
  hasDuplicateUnitids : Bool
  tooManyInstitutions : Bool
  tooFewInstitutions : Bool
  hasInvalidUnitids : Bool
deriving DecidableEq, Repr

/-- `IPEDSProcessor.expected_max_institutions`. -/
def expectedMaxInstitutions : ℕ := 7000

/-- `(unitid < 100000) | (unitid > 999999)` on one cell (`NaN` compares
false on both sides). -/
def invalidUnitid (v : Val) : Bool :=
  v.ltC (fl 100000) || v.gtC (fl 999999)

/-- The quality flags of a table (`validate_data`, key column present). -/
def Table.qualityFlags (t : Table) : QualityFlags where
  hasDuplicateUnitids := 0 < t.dupKeyCount
  tooManyInstitutions := expectedMaxInstitutions < t.nuniqueKeys
  tooFewInstitutions := t.nuniqueKeys < 1000
  hasInvalidUnitids :=
    if t.keyVals.all Val.isna then false else t.keyVals.any invalidUnitid

/-- `sum(flags.values())`. -/
def QualityFlags.count (f : QualityFlags) : ℕ :=
  f.hasDuplicateUnitids.toNat + f.tooManyInstitutions.toNat +
    f.tooFewInstitutions.toNat + f.hasInvalidUnitids.toNat

/-- `validation["data_quality_score"]`: computed only when the key column
exists, as `max(0, 100 - issues * 25)`. -/
def Table.dataQualityScore (t : Table) : Option ℤ :=
  if t.cols.contains "UNITID" then
    some (max 0 (100 - (t.qualityFlags.count : ℤ) * 25))
  else none

/-- `IPEDSProcessor.save_processed_data`: the table written to disk, with
any remaining duplicate keys dropped (keep first) when the key column is
present.  The caller's frame is NOT this value: the dedup rebinds a local
name only. -/
def saveProcessedData (t : Table) : Table :=
  if t.cols.contains "UNITID" then t.dedupByKey else t

/-! ### Finance (`process_finance.FinanceProcessor._safe_add`) -/

/-- `FinanceProcessor._safe_add` on one pair of cells: add when both are
present, keep the present one when only one is, `NaN` when neither is. -/
def safeAdd (a b : Val) : Val :=
  if !a.isna && !b.isna then a.addV b
  else if !a.isna then a
  else if !b.isna then b
  else .na

/-! ### Admissions (`process_admissions.AdmissionsProcessor`) -/

/-- The fixed admissions column list (`AdmissionsProcessor.process`). -/
def admissionsKeyColumns : List String :=
  ["UNITID", "APPLCN", "APPLCNM", "APPLCNW", "ADMSSN", "ADMSSNM", "ADMSSNW",
   "ENRLT", "ENRLTM", "ENRLTW", "ENRLFT", "ENRLPT", "SATNUM", "SATPCT",
   "ACTNUM", "ACTPCT", "SATVR25", "SATVR75", "SATMT25", "SATMT75",
   "SATWR25", "SATWR75", "ACTCM25", "ACTCM75", "ACTEN25", "ACTEN75",
   "ACTMT25", "ACTMT75", "ACTWR25", "ACTWR75"]

/-- `df["ADMSSN"] / df["APPLCN"] * 100`, rounded to 2 decimals, on one row
(`AdmissionsProcessor.add_derived_fields`). -/
def acceptanceRateVal (admssn applcn : Val) : Val :=
  Val.roundV 2 ((admssn.divV applcn).mulV (.num (fl 100)))

/-- `df["ENRLT"] / df["ADMSSN"] * 100`, rounded to 2 decimals. -/
def yieldRateVal (enrlt admssn : Val) : Val :=
  Val.roundV 2 ((enrlt.divV admssn).mulV (.num (fl 100)))

/-- `categorize_selectivity`, with the source's literal labels. -/
def categorizeSelectivity (v : Val) : Val :=
  if v.isna then .str "Unknown"
  else if v.leC (fl 10) then .str "Most competitive (â‰¤10%)"
  else if v.leC (fl 25) then .str "Highly competitive (11-25%)"
  else if v.leC (fl 50) then .str "Competitive (26-50%)"
  else if v.leC (fl 75) then .str "Moderately competitive (51-75%)"
  else .str "Less competitive (>75%)"

/-- `a.astype(str) + " - " + b.astype(str)` with `"nan - nan"` replaced by
`NaN` (the SAT/ACT range strings). -/
def rangeStringVal (a b : Val) : Val :=
  let s := a.pyStr ++ " - " ++ b.pyStr
  if s == "nan - nan" then .na else .str s

/-- `(series >= c).astype(int)` on one cell. -/
def geAsInt (v : Val) (c : Flt) : Val :=
  .num (fl (if v.geC c then 1 else 0))

/-- The cell of a boolean column read back as a Bool (`False` for anything
that is not `True`, matching `|=` accumulation on a bool column). -/
def asBool (v : Val) : Bool :=
  match v with
  | .bool b => b
  | _ => false

/-- `(series < 25) & series.notna()`: the likely-test-optional mask. -/
def testOptionalMask (v : Val) : Bool :=
  v.ltC (fl 25) && !v.isna

/-- `AdmissionsProcessor.add_derived_fields`.  Each derived column is
added only when its inputs are present, checked against the evolving
frame exactly as the source does; the two unguarded double-bracket
selections raise a `KeyError` when a selected column is absent. -/
def admissionsDerivedFields (df : Table) : Except String Table := do
  let t1 :=
    if df.cols.contains "APPLCN" && df.cols.contains "ADMSSN" then
      df.setCol "acceptance_rate"
        (fun r => acceptanceRateVal (getCell r "ADMSSN") (getCell r "APPLCN"))
    else df
  let t2 :=
    if t1.cols.contains "ENRLT" && t1.cols.contains "ADMSSN" then
      t1.setCol "yield_rate"
        (fun r => yieldRateVal (getCell r "ENRLT") (getCell r "ADMSSN"))
    else t1
  let t3 :=
    if t2.cols.contains "acceptance_rate" then
      t2.setCol "selectivity_category"
        (fun r => categorizeSelectivity (getCell r "acceptance_rate"))
    else t2
  let t4 :=
    if t3.cols.contains "SATVR25" && t3.cols.contains "SATMT25" then
      t3.setCol "sat_total_25"
        (fun r => (getCell r "SATVR25").addV (getCell r "SATMT25"))
    else t3
  let t5 :=
    if t4.cols.contains "SATVR75" && t4.cols.contains "SATMT75" then
      t4.setCol "sat_total_75"
        (fun r => (getCell r "SATVR75").addV (getCell r "SATMT75"))
    else t4
  let t6 :=
    if t5.cols.contains "sat_total_25" && t5.cols.contains "sat_total_75" then
      t5.setCol "sat_range"
        (fun r => rangeStringVal (getCell r "sat_total_25") (getCell r "sat_total_75"))
    else t5
  let t7 :=
    if t6.cols.contains "ACTCM25" && t6.cols.contains "ACTCM75" then
      t6.setCol "act_range"
        (fun r => rangeStringVal (getCell r "ACTCM25") (getCell r "ACTCM75"))
    else t6
  let t8 :=
    if t7.cols.contains "SATNUM" && t7.cols.contains "ENRLT" then
      t7.setCol "sat_submission_rate"
        (fun r => Val.roundV 2 (((getCell r "SATNUM").divV (getCell r "ENRLT")).mulV (.num (fl 100))))
    else t7
  let t9 :=
    if t8.cols.contains "ACTNUM" && t8.cols.contains "ENRLT" then
      t8.setCol "act_submission_rate"
        (fun r => Val.roundV 2 (((getCell r "ACTNUM").divV (getCell r "ENRLT")).mulV (.num (fl 100))))
    else t8
  let t10 :=
    if t9.cols.contains "APPLCNM" && t9.cols.contains "APPLCNW" && t9.cols.contains "APPLCN" then
      (t9.setCol "pct_male_applicants"
        (fun r => Val.roundV 2 (((getCell r "APPLCNM").divV (getCell r "APPLCN")).mulV (.num (fl 100))))).setCol
        "pct_female_applicants"
        (fun r => Val.roundV 2 (((getCell r "APPLCNW").divV (getCell r "APPLCN")).mulV (.num (fl 100))))
    else t9
  let t11 :=
    if t10.cols.contains "sat_total_75" then
      t10.setCol "highly_competitive_sat" (fun r => geAsInt (getCell r "sat_total_75") (fl 1400))
    else t10
  let t12 :=
    if t11.cols.contains "ACTCM75" then
      t11.setCol "highly_competitive_act" (fun r => geAsInt (getCell r "ACTCM75") (fl 32))
    else t11
  if !(t12.cols.contains "APPLCN" && t12.cols.contains "ADMSSN" && t12.cols.contains "ENRLT") then
    throw "KeyError: [APPLCN, ADMSSN, ENRLT] not all in columns"
  let t13 := t12.setCol "has_admissions_data"
    (fun r => .bool (!(getCell r "APPLCN").isna || !(getCell r "ADMSSN").isna || !(getCell r "ENRLT").isna))
  let t14 ←
    if t13.cols.contains "SATVR25" then
      if t13.cols.contains "SATMT25" then
        pure (t13.setCol "has_sat_scores"
          (fun r => .bool (!(getCell r "SATVR25").isna && !(getCell r "SATMT25").isna)))
      else throw "KeyError: [SATVR25, SATMT25] not all in columns"
    else pure (t13.setColConst "has_sat_scores" (.bool false))
  let t15 :=
    if t14.cols.contains "ACTCM25" then
      t14.setCol "has_act_scores" (fun r => .bool (!(getCell r "ACTCM25").isna))
    else t14.setColConst "has_act_scores" (.bool false)
  let t16 := t15.setColConst "likely_test_optional" (.bool false)
  let t17 :=
    if t16.cols.contains "sat_submission_rate" then
      t16.setCol "likely_test_optional"
        (fun r => .bool (asBool (getCell r "likely_test_optional") ||
          testOptionalMask (getCell r "sat_submission_rate")))
    else t16
  let t18 :=
    if t17.cols.contains "act_submission_rate" then
      t17.setCol "likely_test_optional"
        (fun r => .bool (asBool (getCell r "likely_test_optional") ||
          testOptionalMask (getCell r "act_submission_rate")))
    else t17
  pure t18

/-- `AdmissionsProcessor.process` from the already-loaded raw frame:
column selection, numeric cleaning, derived fields, the
`has_admissions_data` row filter, and `save_processed_data`.  Returns the
pair (frame returned to the caller, frame written to disk). -/
def admissionsProcess (raw : Table) : Except String (Table × Table) := do
  let avail := admissionsKeyColumns.filter (fun c => raw.cols.contains c)
  let t0 := raw.selectCols avail
  let t1 := cleanNumericColumns t0 (avail.filter (fun c => c != "UNITID"))
  let t2 ← admissionsDerivedFields t1
  let t3 : Table := ⟨t2.cols, t2.rows.filter (fun r => getCell r "has_admissions_data" == Val.bool true)⟩
  pure (t3, saveProcessedData t3)

/-! ### Unifier and orchestrator (`master_processor.MasterIPEDSProcessor`) -/

/-- The log lines of interest emitted by the master processor (`info`,
`warning` and `error` calls that the claims talk about). -/
inductive LogEvent where
  | removedDuplicates (dataset : String) (count : ℕ)
  | unitidsNotInDirectory (dataset : String) (count : ℕ)
  | noDataToMerge (dataset : String)
  | noDirectoryData
  | baseHadDuplicates (count : ℕ)
  | duplicatesAfterMerge (dataset : String) (count : ℕ)
  | processorFailed (dataset : String) (msg : String)
  | datasetInvalid (dataset : String)
  | unifiedInvalid
deriving DecidableEq, Repr

/-- One merge step of `MasterIPEDSProcessor.create_unified_dataset`
(lines 220-289): dedup the incoming table by key (keep first, logged),
compare its key set against the directory universe (logged), left-join
onto the accumulator, and raise `ValueError` when the row count or the
distinct-key count changed; a surviving duplicate is dropped defensively
afterwards (logged). -/
def mergeStep (baseUnitids : List Val) (acc : Table) (name : String) (ds : Table) :
    Except String (Table × List LogEvent) :=
  let ds2 := if ds.cols.contains "UNITID" then ds.dedupByKey else ds
  let log1 :=
    if ds2.rows.length != ds.rows.length then
      [LogEvent.removedDuplicates name (ds.rows.length - ds2.rows.length)]
    else []
  if !ds.cols.contains "UNITID" then .error ("KeyError: UNITID in " ++ name)
  else
    let invalidCount := (ds2.keyVals.dedup.filter (fun k => !baseUnitids.contains k)).length
    let log2 :=
      if invalidCount != 0 then [LogEvent.unitidsNotInDirectory name invalidCount] else []
    if !acc.cols.contains "UNITID" then .error "KeyError: UNITID in accumulator"
    else
      let joined := acc.leftJoin ds2
      if acc.rowCount != joined.rowCount then
        .error ("Data multiplication detected during " ++ name ++ " merge")
      else if acc.nuniqueKeys != joined.nuniqueKeys then
        .error ("UNITID integrity violation during " ++ name ++ " merge")
      else if 0 < joined.dupKeyCount then
        .ok (joined.dedupByKey,
          log1 ++ log2 ++ [LogEvent.duplicatesAfterMerge name joined.dupKeyCount])
      else .ok (joined, log1 ++ log2)

/-- One iteration of the merge loop: merge when the domain table exists
and is nonempty, otherwise log and keep the accumulator. -/
def mergeDomain (baseUnitids : List Val) (name : String) (od : Option Table)
    (st : Table × List LogEvent) : Except String (Table × List LogEvent) :=
  match od with
  | some ds =>
      if 0 < ds.rows.length then
        match mergeStep baseUnitids st.1 name ds with
        | .ok (t, lg) => .ok (t, st.2 ++ lg)
        | .error e => .error e
      else .ok (st.1, st.2 ++ [LogEvent.noDataToMerge name])
  | none => .ok (st.1, st.2 ++ [LogEvent.noDataToMerge name])

/-- `_validate_unified_dataset`: true when no issue is recorded (warnings
do not count). -/
def validUnified (t : Table) : Bool :=
  !(t.rows.length == 0) && t.cols.contains "UNITID" && t.dupKeyCount == 0 &&
    t.rowCount == t.nuniqueKeys && decide (t.rowCount ≤ 10000)

/-- `(unitid >= 100000) & (unitid <= 999999)` on one cell (`NaN` fails
both, so `& notna()` in `_apply_final_fixes` adds nothing). -/
def validUnitidRange (v : Val) : Bool :=
  v.geC (fl 100000) && v.leC (fl 999999)

/-- `_apply_final_fixes`: drop duplicate keys, then drop out-of-range
keys.  (Reached only with the key column present; `drop_duplicates` on a
keyless frame, which would raise, is modelled as key-`NaN` dedup.) -/
def applyFinalFixes (t : Table) : Table :=
  let t1 := t.dedupByKey
  if t1.cols.contains "UNITID" then
    ⟨t1.cols, t1.rows.filter (fun r => validUnitidRange (keyOf r))⟩
  else t1

/-- The mean of a list of cells, skipping `NaN` (`DataFrame.mean(axis=1)`);
the mean of nothing is `NaN`. -/
def meanVals (vs : List Val) : Val :=
  let xs := vs.filter (fun v => !v.isna)
  if xs.isEmpty then .na
  else (xs.foldl Val.addV (.num (fl 0))).divV (.num (fl (xs.length : ℤ)))

/-- `(100 - df["acceptance_rate"].fillna(50)) / 100` on one row — note:
not clipped. -/
def accCompetitiveness (r : Row) : Val :=
  ((Val.num (fl 100)).subV ((getCell r "acceptance_rate").fillna (fl 50))).divV (.num (fl 100))

/-- `((df["sat_total_75"].fillna(1000) - 800) / 800).clip(0, 1)` on one row. -/
def satCompetitiveness (r : Row) : Val :=
  Val.clip (fl 0) (fl 1)
    ((((getCell r "sat_total_75").fillna (fl 1000)).subV (.num (fl 800))).divV (.num (fl 800)))

/-- `((df["ACTCM75"].fillna(20) - 15) / 21).clip(0, 1)` on one row. -/
def actCompetitiveness (r : Row) : Val :=
  Val.clip (fl 0) (fl 1)
    ((((getCell r "ACTCM75").fillna (fl 20)).subV (.num (fl 15))).divV (.num (fl 21)))

/-- The factor columns available to the competitiveness score, in the
order the source appends them. -/
def competitivenessFactors (hasAcc hasSat hasAct : Bool) : List String :=
  (if hasAcc then ["acceptance_competitiveness"] else []) ++
    (if hasSat then ["sat_competitiveness"] else []) ++
    (if hasAct then ["act_competitiveness"] else [])

/-- `MasterIPEDSProcessor._add_unified_derived_fields`. -/
def addUnifiedDerivedFields (df : Table) : Table :=
  let hasAcc := df.cols.contains "acceptance_rate"
  let t1 := if hasAcc then df.setCol "acceptance_competitiveness" accCompetitiveness else df
  let hasSat := t1.cols.contains "sat_total_75"
  let t2 := if hasSat then t1.setCol "sat_competitiveness" satCompetitiveness else t1
  let hasAct := t2.cols.contains "ACTCM75"
  let t3 := if hasAct then t2.setCol "act_competitiveness" actCompetitiveness else t2
  let factors := competitivenessFactors hasAcc hasSat hasAct
  if factors.isEmpty then t3
  else t3.setCol "competitiveness_score"
    (fun r => Val.roundV 3 (meanVals (factors.map (getCell r))))

/-- The fixed list of important fields of
`MasterIPEDSProcessor._calculate_data_quality_score`. -/
def importantFields : List String :=
  ["INSTNM", "location", "control_type", "acceptance_rate", "sat_total_75",
   "ACTCM75", "student_body_size", "total_in_state_tuition_fees", "room_and_board"]

/-- The quality-category lambda (`NaN` compares false throughout, so it
falls to the last bucket). -/
def qualityCategory (v : Val) : Val :=
  .str (if v.geC ⟨9, 10⟩ then "Excellent (90%+)"
    else if v.geC ⟨7, 10⟩ then "Good (70-89%)"
    else if v.geC ⟨1, 2⟩ then "Fair (50-69%)"
    else "Poor (<50%)")

/-- `MasterIPEDSProcessor._calculate_data_quality_score`. -/
def calcDataQualityScore (df : Table) : Table :=
  let avail := importantFields.filter (fun c => df.cols.contains c)
  let t1 :=
    if avail.isEmpty then df.setColConst "data_completeness" (.num (fl 0))
    else df.setCol "data_completeness"
      (fun r => Val.roundV 3
        ((Val.num (fl (avail.countP (fun c => !(getCell r c).isna) : ℤ))).divV
          (Val.num (fl (avail.length : ℤ)))))
  t1.setCol "data_quality_category" (fun r => qualityCategory (getCell r "data_completeness"))

/-- The per-domain outputs handed to the Unifier (`None` models a name
missing from the `processed_data` dict). -/
structure ProcessedData where
  directory : Option Table
  admissions : Option Table
  enrollment : Option Table
  finance : Option Table

/-- `MasterIPEDSProcessor.create_unified_dataset` on already-processed
inputs: directory guard, base dedup, the three merge steps in fixed
order, final validation with best-effort fixes, derived fields and the
completeness score.  (Writing the CSV and the text report are outside the
model.) -/
def createUnifiedDataset (pd : ProcessedData) : Except String (Table × List LogEvent) := do
  match pd.directory with
  | none => pure (Table.empty, [LogEvent.noDirectoryData])
  | some dir =>
    if dir.rows.length == 0 then
      pure (Table.empty, [LogEvent.noDirectoryData])
    else do
      if !dir.cols.contains "UNITID" then
        throw "KeyError: UNITID in institutional directory"
      let baseUnitids := dir.keyVals.dedup
      let (base, log0) :=
        if 0 < dir.dupKeyCount then
          (dir.dedupByKey, [LogEvent.baseHadDuplicates dir.dupKeyCount])
        else (dir, ([] : List LogEvent))
      let st1 ← mergeDomain baseUnitids "admissions" pd.admissions (base, log0)
      let st2 ← mergeDomain baseUnitids "enrollment" pd.enrollment st1
      let st3 ← mergeDomain baseUnitids "finance" pd.finance st2
      let (fixed, log4) :=
        if validUnified st3.1 then (st3.1, ([] : List LogEvent))
        else (applyFinalFixes st3.1, [LogEvent.unifiedInvalid])
      let u := calcDataQualityScore (addUnifiedDerivedFields fixed)
      pure (u, st3.2 ++ log4)

/-- The expected row-count ranges of `_validate_processed_dataset`. -/
def expectedCountRange (name : String) : Option (ℕ × ℕ) :=
  if name == "institutional_directory" then some (6000, 7000)
  else if name == "admissions" then some (1500, 3000)
  else if name == "enrollment" then some (6000, 7000)
  else if name == "finance" then some (5000, 8000)
  else none

/-- `_validate_processed_dataset` reduced to its verdict: issues are a
missing key column, a row count above twice the expected maximum, or
duplicate keys (low counts and out-of-range keys are only warnings). -/
def validateProcessedDataset (t : Table) (name : String) : Bool :=
  if !t.cols.contains "UNITID" then false
  else
    let countOk :=
      match expectedCountRange name with
      | some (_, maxE) => decide (t.rowCount ≤ maxE * 2)
      | none => true
    countOk && (t.dupKeyCount == 0)

/-- `_fix_common_issues`: drop duplicate keys, then out-of-range keys
(the oversize check only logs). -/
def fixCommonIssues (t : Table) : Table :=
  let t1 := if t.cols.contains "UNITID" then t.dedupByKey else t
  if t1.cols.contains "UNITID" then
    ⟨t1.cols, t1.rows.filter (fun r => validUnitidRange (keyOf r))⟩
  else t1

/-- The body of the `process_all` loop for one processor, given the
outcome of its `process()` call: an exception is caught, logged and
replaced by an empty frame; an invalid result is passed through
`_fix_common_issues`. -/
def processOne (name : String) (outcome : Except String Table) : Table × List LogEvent :=
  match outcome with
  | .error e => (Table.empty, [LogEvent.processorFailed name e])
  | .ok df =>
      if validateProcessedDataset df name then (df, [])
      else (fixCommonIssues df, [LogEvent.datasetInvalid name])

/-- `MasterIPEDSProcessor.process_all`: fold the loop body over the
processors in order, accumulating the `processed_data` entries and the
log. -/
def processAll (results : List (String × Except String Table)) :
    List (String × Table) × List LogEvent :=
  results.foldl
    (fun acc p =>
      let (t, lg) := processOne p.1 p.2
      (acc.1 ++ [(p.1, t)], acc.2 ++ lg))
    ([], [])

/-! ### Specification-side definitions (for refinement statements) -/

/-- Specification-side round-half-to-even of a rational to an integer:
the mathematical reading of "rounded", against which the code's `Flt.rnd`
is compared. -/
def qRound (x : ℚ) : ℤ :=
  if x - ⌊x⌋ < 1 / 2 then ⌊x⌋
  else if 1 / 2 < x - ⌊x⌋ then ⌊x⌋ + 1
  else if Even ⌊x⌋ then ⌊x⌋ else ⌊x⌋ + 1

/-- Specification-side "to 2 decimals" on a rational. -/
def specRound2 (q : ℚ) : ℚ := (qRound (q * 100) : ℚ) / 100

/-- A cell that is either missing or a finite number (the shape every raw
numeric column has after cleaning). -/
def cellNaOrNum (v : Val) : Prop := v = Val.na ∨ ∃ x, v = Val.num x

/-- A cell that is missing or a finite number between 0 and 100 (an
ordinary acceptance rate). -/
def accRateOK (v : Val) : Prop :=
  v = Val.na ∨ ∃ x, v = Val.num x ∧ 0 ≤ x.toRat ∧ x.toRat ≤ 100

/-- The sub-score cells the competitiveness mean ranges over, computed
from the pre-update row. -/
def subScores (hasAcc hasSat hasAct : Bool) (r : Row) : List Val :=
  (if hasAcc then [accCompetitiveness r] else []) ++
    (if hasSat then [satCompetitiveness r] else []) ++
    (if hasAct then [actCompetitiveness r] else [])

/-! ### Concrete instances (inputs for counterexamples and witnesses) -/

/-- A raw admissions extract with a duplicated `UNITID`, both rows
carrying admissions data. -/
def rawC6 : Table :=
  ⟨["UNITID", "APPLCN", "ADMSSN", "ENRLT"],
   [[("UNITID", Val.num (fl 100001)), ("APPLCN", Val.num (fl 100)),
     ("ADMSSN", Val.num (fl 50)), ("ENRLT", Val.na)],
    [("UNITID", Val.num (fl 100001)), ("APPLCN", Val.num (fl 200)),
     ("ADMSSN", Val.num (fl 80)), ("ENRLT", Val.na)]]⟩

/-- The frame `AdmissionsProcessor.process` returns on `rawC6`. -/
def retC6 : Table :=
  match admissionsProcess rawC6 with
  | .ok p => p.1
  | .error _ => Table.empty

/-- The frame `AdmissionsProcessor.process` writes to disk on `rawC6`. -/
def savedC6 : Table :=
  match admissionsProcess rawC6 with
  | .ok p => p.2
  | .error _ => Table.empty

/-- The directory table of the end-to-end scenario: keys 100001-100003. -/
def dirC9 : Table :=
  ⟨["UNITID"],
   [[("UNITID", Val.num (fl 100001))], [("UNITID", Val.num (fl 100002))],
    [("UNITID", Val.num (fl 100003))]]⟩

/-- The admissions table of the end-to-end scenario: two rows for 100001. -/
def admC9 : Table :=
  ⟨["UNITID", "APPLCN"],
   [[("UNITID", Val.num (fl 100001)), ("APPLCN", Val.num (fl 100))],
    [("UNITID", Val.num (fl 100001)), ("APPLCN", Val.num (fl 200))]]⟩

/-- The processed-data map of the end-to-end scenario. -/
def pdC9 : ProcessedData := ⟨some dirC9, some admC9, none, none⟩

/-- The unified table of the end-to-end scenario. -/
def outC9 : Table :=
  match createUnifiedDataset pdC9 with
  | .ok p => p.1
  | .error _ => Table.empty

/-- The log of the end-to-end scenario. -/
def logsC9 : List LogEvent :=
  match createUnifiedDataset pdC9 with
  | .ok p => p.2
  | .error _ => []

/-- A unified table whose only competitiveness input is an acceptance
rate of 200 percent. -/
def tC7 : Table :=
  ⟨["UNITID", "acceptance_rate"],
   [[("UNITID", Val.num (fl 100001)), ("acceptance_rate", Val.num (fl 200))]]⟩

/-- A unified table with an ordinary 50 percent acceptance rate. -/
def tW7 : Table :=
  ⟨["UNITID", "acceptance_rate"],
   [[("UNITID", Val.num (fl 100001)), ("acceptance_rate", Val.num (fl 50))]]⟩

/-- A one-row table with a valid key (used to instantiate validator
claims). -/
def tW4 : Table := ⟨["UNITID"], [[("UNITID", Val.num (fl 100001))]]⟩

/-- A store with one frame, holding a numeric string and a null code. -/
def heapW5 : Heap :=
  [⟨["UNITID", "APPLCN"],
    [[("UNITID", Val.num (fl 100001)), ("APPLCN", Val.str "12")],
     [("UNITID", Val.num (fl 100002)), ("APPLCN", Val.str ".")]]⟩]

/-- Processor outcomes where admissions raised and enrollment succeeded. -/
def resultsW8 : List (String × Except String Table) :=
  [("admissions", Except.error "boom"), ("enrollment", Except.ok tW4)]

/-- A processed-data map with no directory entry at all. -/
def pdW10 : ProcessedData := ⟨none, some admC9, none, none⟩

/-- The accumulator produced by the admissions merge step of the
end-to-end scenario. -/
def mergeOutC1 : Table :=
  match mergeStep dirC9.keyVals.dedup dirC9 "admissions" admC9 with
  | .ok p => p.1
  | .error _ => Table.empty

/-- The log produced by the admissions merge step of the end-to-end
scenario. -/
def mergeLogC1 : List LogEvent :=
  match mergeStep dirC9.keyVals.dedup dirC9 "admissions" admC9 with
  | .ok p => p.2
  | .error _ => []

/-! ### Theorems -/

theorem Flt.toRat_fl (z : ℤ) : (fl z).toRat = (z : ℚ) := by
  simp [fl, Flt.toRat]

theorem Flt.dpos_q (a : Flt) : (0 : ℚ) < ((a.d : ℕ) : ℚ) := by
  exact_mod_cast a.d.property

theorem Flt.toRat_add (a b : Flt) : (a.add b).toRat = a.toRat + b.toRat := by
  have ha := a.dpos_q; have hb := b.dpos_q
  simp only [Flt.add, Flt.toRat, PNat.mul_coe]
  push_cast
  field_simp
  try ring

theorem Flt.toRat_sub (a b : Flt) : (a.sub b).toRat = a.toRat - b.toRat := by
  have ha := a.dpos_q; have hb := b.dpos_q
  simp only [Flt.sub, Flt.toRat, PNat.mul_coe]
  push_cast
  field_simp
  try ring

theorem Flt.toRat_mul (a b : Flt) : (a.mul b).toRat = a.toRat * b.toRat := by
  have ha := a.dpos_q; have hb := b.dpos_q
  simp only [Flt.mul, Flt.toRat, PNat.mul_coe]
  push_cast
  field_simp
  try ring

theorem Flt.toRat_div (a b : Flt) (hb : b.n ≠ 0) :
    (a.div b).toRat = a.toRat / b.toRat := by
  have ha := a.dpos_q; have hb2 := b.dpos_q
  have hmax : max b.n.natAbs 1 = b.n.natAbs :=
    Nat.max_eq_left (Int.natAbs_pos.mpr hb)
  have hquot : ((b.n.natAbs : ℚ)) = |(b.n : ℚ)| := by
    rw [Int.cast_natAbs]
    exact Int.cast_abs
  simp only [Flt.div, Flt.toRat, PNat.mul_coe, PNat.mk_coe, hmax]
  push_cast [hquot]
  have hbq : (b.n : ℚ) ≠ 0 := Int.cast_ne_zero.mpr hb
  rcases lt_or_gt_of_ne hb with h | h
  · rw [Int.sign_eq_neg_one_of_neg h, abs_of_neg (by exact_mod_cast h : (b.n : ℚ) < 0)]
    push_cast
    field_simp
    try ring
  · rw [Int.sign_eq_one_of_pos h, abs_of_pos (by exact_mod_cast h : (0 : ℚ) < (b.n : ℚ))]
    push_cast
    field_simp
    try ring

theorem Flt.le_iff (a b : Flt) : a.le b ↔ a.toRat ≤ b.toRat := by
  have ha := a.dpos_q; have hb := b.dpos_q
  rw [Flt.le, Flt.toRat, Flt.toRat, div_le_div_iff₀ ha hb]
  constructor
  · intro h; exact_mod_cast h
  · intro h; exact_mod_cast h

theorem Flt.lt_iff (a b : Flt) : a.lt b ↔ a.toRat < b.toRat := by
  have ha := a.dpos_q; have hb := b.dpos_q
  rw [Flt.lt, Flt.toRat, Flt.toRat, div_lt_div_iff₀ ha hb]
  constructor
  · intro h; exact_mod_cast h
  · intro h; exact_mod_cast h

theorem Flt.zero_iff (b : Flt) : b.n = 0 ↔ b.toRat = 0 := by
  have hb := b.dpos_q
  rw [Flt.toRat, div_eq_zero_iff]
  constructor
  · intro h; left; exact_mod_cast h
  · rintro (h | h)
    · exact_mod_cast h
    · exact absurd h (ne_of_gt hb)

theorem Flt.floor_eq (a : Flt) : a.floor = ⌊a.toRat⌋ := by
  have ha : (0 : ℤ) ≤ ((a.d : ℕ) : ℤ) := by positivity
  rw [Flt.floor, Int.fdiv_eq_ediv _ ha, Flt.toRat, Rat.floor_intCast_div_natCast]


theorem Flt.pos_iff (a : Flt) : 0 < a.n ↔ 0 < a.toRat := by
  have hd := a.dpos_q
  rw [Flt.toRat, div_pos_iff]
  constructor
  · intro h
    exact Or.inl ⟨by exact_mod_cast h, hd⟩
  · rintro (⟨h, _⟩ | ⟨_, h2⟩)
    · exact_mod_cast h
    · exact absurd hd (not_lt.mpr h2.le)

theorem Flt.neg_iff (a : Flt) : a.n < 0 ↔ a.toRat < 0 := by
  have hd := a.dpos_q
  rw [Flt.toRat, div_neg_iff]
  constructor
  · intro h
    exact Or.inr ⟨by exact_mod_cast h, hd⟩
  · rintro (⟨_, h2⟩ | ⟨h, _⟩)
    · exact absurd hd (not_lt.mpr h2.le)
    · exact_mod_cast h

theorem Flt.sub_floor_div (a : Flt) :
    a.toRat - (a.floor : ℚ) =
      ((a.n - a.floor * ((a.d : ℕ) : ℤ) : ℤ) : ℚ) / ((a.d : ℕ) : ℚ) := by
  have hd := a.dpos_q
  rw [Flt.toRat]
  push_cast
  field_simp
  ring

theorem half_lt_iff (X D : ℤ) (hD : (0 : ℚ) < (D : ℚ)) :
    2 * X < D ↔ (X : ℚ) / (D : ℚ) < 1 / 2 := by
  rw [div_lt_iff₀ hD]
  constructor
  · intro h
    have h2 : ((2 * X : ℤ) : ℚ) < ((D : ℤ) : ℚ) := by exact_mod_cast h
    push_cast at h2
    linarith
  · intro h
    have h2 : ((2 * X : ℤ) : ℚ) < ((D : ℤ) : ℚ) := by push_cast; linarith
    exact_mod_cast h2

theorem lt_half_iff (X D : ℤ) (hD : (0 : ℚ) < (D : ℚ)) :
    D < 2 * X ↔ 1 / 2 < (X : ℚ) / (D : ℚ) := by
  rw [lt_div_iff₀ hD]
  constructor
  · intro h
    have h2 : ((D : ℤ) : ℚ) < ((2 * X : ℤ) : ℚ) := by exact_mod_cast h
    push_cast at h2
    linarith
  · intro h
    have h2 : ((D : ℤ) : ℚ) < ((2 * X : ℤ) : ℚ) := by push_cast; linarith
    exact_mod_cast h2

theorem Flt.rnd_eq_qRound (a : Flt) : a.rnd = qRound a.toRat := by
  have hD : (0 : ℚ) < (((a.d : ℕ) : ℤ) : ℚ) := by exact_mod_cast a.d.property
  have hsf := a.sub_floor_div
  rw [a.floor_eq] at hsf
  have h1 : 2 * (a.n - ⌊a.toRat⌋ * ((a.d : ℕ) : ℤ)) < ((a.d : ℕ) : ℤ) ↔
      a.toRat - (⌊a.toRat⌋ : ℚ) < 1 / 2 := by
    rw [hsf]
    exact_mod_cast half_lt_iff (a.n - ⌊a.toRat⌋ * ((a.d : ℕ) : ℤ)) ((a.d : ℕ) : ℤ) hD
  have h2 : ((a.d : ℕ) : ℤ) < 2 * (a.n - ⌊a.toRat⌋ * ((a.d : ℕ) : ℤ)) ↔
      1 / 2 < a.toRat - (⌊a.toRat⌋ : ℚ) := by
    rw [hsf]
    exact_mod_cast lt_half_iff (a.n - ⌊a.toRat⌋ * ((a.d : ℕ) : ℤ)) ((a.d : ℕ) : ℤ) hD
  rw [Flt.rnd, qRound, a.floor_eq]
  by_cases hc1 : 2 * (a.n - ⌊a.toRat⌋ * ((a.d : ℕ) : ℤ)) < ((a.d : ℕ) : ℤ)
  · rw [if_pos hc1, if_pos (h1.mp hc1)]
  · rw [if_neg hc1, if_neg (fun hx => hc1 (h1.mpr hx))]
    by_cases hc2 : ((a.d : ℕ) : ℤ) < 2 * (a.n - ⌊a.toRat⌋ * ((a.d : ℕ) : ℤ))
    · rw [if_pos hc2, if_pos (h2.mp hc2)]
    · rw [if_neg hc2, if_neg (fun hx => hc2 (h2.mpr hx))]

theorem Flt.toRat_roundTo (a : Flt) (k : ℕ) :
    (a.roundTo k).toRat = (qRound (a.toRat * 10 ^ k) : ℚ) / 10 ^ k := by
  have hscale : (⟨a.n * (10 ^ k : ℕ), a.d⟩ : Flt).toRat = a.toRat * 10 ^ k := by
    rw [Flt.toRat, Flt.toRat]
    push_cast
    ring
  rw [Flt.roundTo, Flt.toRat, Flt.rnd_eq_qRound, hscale, PNat.mk_coe]
  push_cast
  ring

theorem qRound_nonneg (x : ℚ) (h : 0 ≤ x) : 0 ≤ qRound x := by
  have hf : (0 : ℤ) ≤ ⌊x⌋ := Int.floor_nonneg.mpr h
  unfold qRound
  split_ifs <;> omega

theorem qRound_le_of_le (x : ℚ) (M : ℤ) (hx : x ≤ (M : ℚ)) : qRound x ≤ M := by
  have hfl : ⌊x⌋ ≤ M := by
    have := Int.floor_le_floor hx
    simpa using this
  rcases lt_or_eq_of_le hfl with hlt | heq
  · unfold qRound
    split_ifs <;> omega
  · have hx0 : x - (⌊x⌋ : ℚ) < 1 / 2 := by
      have : x ≤ (⌊x⌋ : ℚ) := by rw [heq]; exact hx
      linarith
    rw [qRound, if_pos hx0]
    omega

theorem Flt.roundTo_bounds (a : Flt) (k : ℕ) (h0 : 0 ≤ a.toRat) (h1 : a.toRat ≤ 1) :
    0 ≤ (a.roundTo k).toRat ∧ (a.roundTo k).toRat ≤ 1 := by
  have hp : (0 : ℚ) < (10 : ℚ) ^ k := by positivity
  rw [Flt.toRat_roundTo]
  constructor
  · apply div_nonneg _ hp.le
    have := qRound_nonneg (a.toRat * 10 ^ k) (by positivity)
    exact_mod_cast this
  · rw [div_le_one hp]
    have hx : a.toRat * 10 ^ k ≤ (((10 : ℤ) ^ k : ℤ) : ℚ) := by
      push_cast
      nlinarith
    have := qRound_le_of_le (a.toRat * 10 ^ k) ((10 : ℤ) ^ k) hx
    exact_mod_cast this

/-- C3: the coalesce-add used for cost aggregation treats a missing
operand as identity: both present adds them (and `Flt.add` is real
addition), one present keeps it, both missing stays missing. -/
theorem safeAdd_coalesce (a b : Flt) :
    safeAdd (Val.num a) (Val.num b) = Val.num (a.add b) ∧
    (a.add b).toRat = a.toRat + b.toRat ∧
    safeAdd (Val.num a) Val.na = Val.num a ∧
    safeAdd Val.na (Val.num b) = Val.num b ∧
    safeAdd Val.na Val.na = Val.na :=
  ⟨rfl, Flt.toRat_add a b, rfl, rfl, rfl⟩

/-- C2 counterexample: with zero applicants and five admitted the derived
acceptance rate is positive infinity, not missing, contradicting the
claim that it is missing whenever applicants is zero. -/
theorem acceptanceRate_zero_applicants_infinite :
    acceptanceRateVal (Val.num (fl 5)) (Val.num (fl 0)) = Val.pinf ∧
    Val.pinf ≠ Val.na := by decide

/-- C2 (amended): the acceptance rate is missing when admitted or
applicants is missing or both are zero; it is a signed infinity when
applicants is zero and admitted is nonzero; otherwise it is
`100 * admitted / applicants` rounded half-to-even to 2 decimals. -/
theorem acceptanceRateVal_spec (a p : Flt) :
    acceptanceRateVal Val.na (Val.num p) = Val.na ∧
    acceptanceRateVal (Val.num a) Val.na = Val.na ∧
    acceptanceRateVal Val.na Val.na = Val.na ∧
    (p.toRat = 0 → a.toRat = 0 → acceptanceRateVal (Val.num a) (Val.num p) = Val.na) ∧
    (p.toRat = 0 → 0 < a.toRat → acceptanceRateVal (Val.num a) (Val.num p) = Val.pinf) ∧
    (p.toRat = 0 → a.toRat < 0 → acceptanceRateVal (Val.num a) (Val.num p) = Val.ninf) ∧
    (p.toRat ≠ 0 → ∃ x, acceptanceRateVal (Val.num a) (Val.num p) = Val.num x ∧
      x.toRat = specRound2 (a.toRat / p.toRat * 100)) := by
  refine ⟨rfl, rfl, rfl, ?_, ?_, ?_, ?_⟩
  · intro hp ha
    have hp0 : p.n = 0 := (Flt.zero_iff p).mpr hp
    have ha0 : a.n = 0 := (Flt.zero_iff a).mpr ha
    simp [acceptanceRateVal, Val.divV, Val.numClass, hp0, ha0, Val.mulV, Val.roundV]
  · intro hp ha
    have hp0 : p.n = 0 := (Flt.zero_iff p).mpr hp
    have ha0 : 0 < a.n := (Flt.pos_iff a).mpr ha
    have hne : a.n ≠ 0 := ne_of_gt ha0
    norm_num [acceptanceRateVal, Val.divV, Val.numClass, hp0, ha0, hne,
      Val.mulV, Val.roundV, fl]
  · intro hp ha
    have hp0 : p.n = 0 := (Flt.zero_iff p).mpr hp
    have ha0 : a.n < 0 := (Flt.neg_iff a).mpr ha
    have hane : ¬ a.n = 0 := by omega
    have hanpos : ¬ 0 < a.n := by omega
    norm_num [acceptanceRateVal, Val.divV, Val.numClass, hp0, hane, hanpos,
      Val.mulV, Val.roundV, fl]
  · intro hp
    have hp0 : ¬ p.n = 0 := fun h => hp ((Flt.zero_iff p).mp h)
    refine ⟨((a.div p).mul (fl 100)).roundTo 2, ?_, ?_⟩
    · simp [acceptanceRateVal, Val.divV, Val.numClass, hp0, Val.mulV, Val.roundV]
    · rw [Flt.toRat_roundTo, Flt.toRat_mul, Flt.toRat_div a p hp0, Flt.toRat_fl,
        specRound2]
      norm_num

/-- C2 witness: a concrete instantiation of the amended acceptance-rate
theorem (5 admitted, 0 applicants, both zero). -/
theorem acceptanceRateVal_spec_witness :
    acceptanceRateVal (Val.num (fl 0)) (Val.num (fl 0)) = Val.na :=
  (acceptanceRateVal_spec (fl 0) (fl 0)).2.2.2.1 (by norm_num [fl, Flt.toRat])
    (by norm_num [fl, Flt.toRat])

/-- C4: when the key column is present the validator's quality score is
`max(0, 100 - 25 * n)` for `n` the number of raised flags; no flags gives
100, two flags give 50, and the score is never negative. -/
theorem validateData_qualityScore (t : Table) (h : t.cols.contains "UNITID" = true) :
    t.dataQualityScore = some (max 0 (100 - 25 * (t.qualityFlags.count : ℤ))) ∧
    (t.qualityFlags.count = 0 → t.dataQualityScore = some 100) ∧
    (t.qualityFlags.count = 2 → t.dataQualityScore = some 50) ∧
    (∀ s : ℤ, t.dataQualityScore = some s → 0 ≤ s) := by
  have hbase : t.dataQualityScore = some (max 0 (100 - 25 * (t.qualityFlags.count : ℤ))) := by
    rw [Table.dataQualityScore, if_pos h]
    ring_nf
  refine ⟨hbase, ?_, ?_, ?_⟩
  · intro hc
    rw [hbase, hc]
    norm_num
  · intro hc
    rw [hbase, hc]
    norm_num
  · intro s hs
    rw [hbase] at hs
    have := Option.some.inj hs
    omega

/-- C4 witness: a one-row table (only the too-few-institutions flag is
raised, so the score is 75). -/
theorem validateData_qualityScore_witness :
    tW4.cols.contains "UNITID" = true ∧
      tW4.dataQualityScore = some (max 0 (100 - 25 * (tW4.qualityFlags.count : ℤ))) ∧
      tW4.dataQualityScore = some 75 :=
  ⟨by decide, (validateData_qualityScore tW4 (by decide)).1, by decide⟩

/-- C10: when the directory entry is absent or empty the Unifier returns
an empty table and logs, whatever the other domains hold; no exception
escapes. -/
theorem createUnified_no_directory (pd : ProcessedData)
    (h : pd.directory = none ∨ ∃ t0, pd.directory = some t0 ∧ t0.rows = []) :
    createUnifiedDataset pd = Except.ok (Table.empty, [LogEvent.noDirectoryData]) := by
  rcases h with h | ⟨t0, h, ht⟩
  · simp [createUnifiedDataset, h, pure, Except.pure]
  · simp [createUnifiedDataset, h, ht, pure, Except.pure]

/-- C10 witness: the map with no directory entry (nonempty admissions
data notwithstanding). -/
theorem createUnified_no_directory_witness :
    createUnifiedDataset pdW10 = Except.ok (Table.empty, [LogEvent.noDirectoryData]) :=
  createUnified_no_directory pdW10 (Or.inl rfl)

/-- C9: on directory keys 100001-100003 and an admissions table with two
rows for 100001, unification succeeds with exactly 3 rows, the duplicate
is dropped before the merge keeping the first occurrence (the surviving
APPLCN is 100), and the removal is logged. -/
theorem createUnified_duplicate_scenario :
    (createUnifiedDataset pdC9).isOk = true ∧
    outC9.rowCount = 3 ∧
    LogEvent.removedDuplicates "admissions" 1 ∈ logsC9 ∧
    getCell (outC9.rows.getD 0 []) "APPLCN" = Val.num (fl 100) := by decide

theorem dedupRowsFirst_keys_nodup (rs : List Row) (seen : List Val) :
    ((dedupRowsFirst rs seen).map keyOf).Nodup ∧
      ∀ v ∈ (dedupRowsFirst rs seen).map keyOf, v ∉ seen := by
  induction rs generalizing seen with
  | nil => simp [dedupRowsFirst]
  | cons r rs ih =>
    by_cases hk : keyOf r ∈ seen
    · simpa [dedupRowsFirst, hk] using ih seen
    · obtain ⟨h1, h2⟩ := ih (keyOf r :: seen)
      simp only [dedupRowsFirst, if_neg hk, List.map_cons, List.nodup_cons]
      refine ⟨⟨fun hmem => (h2 _ hmem) (List.mem_cons_self _ _), h1⟩, ?_⟩
      intro v hv
      rcases List.mem_cons.mp hv with hv | hv
      · exact hv ▸ hk
      · exact fun hs => (h2 v hv) (List.mem_cons_of_mem _ hs)

theorem Table.dedupByKey_keys_nodup (t : Table) : t.dedupByKey.keyVals.Nodup :=
  (dedupRowsFirst_keys_nodup t.rows []).1

/-- C6 counterexample: on a raw admissions extract with a duplicated
UNITID, the table returned by `process` still carries the duplicate key,
contradicting the claim that extraction output has no duplicates. -/
theorem admissionsProcess_duplicate_keys :
    (admissionsProcess rawC6).isOk = true ∧
    retC6.keyVals = [Val.num (fl 100001), Val.num (fl 100001)] ∧
    ¬ retC6.keyVals.Nodup := by decide

/-- C6 (amended): the frame `save_processed_data` writes to disk carries
no duplicate key (the dedup there rebinds a local name, so the frame
returned by `process` may keep duplicates, as the counterexample shows). -/
theorem saveProcessedData_keys_nodup (t : Table) (h : t.cols.contains "UNITID" = true) :
    (saveProcessedData t).keyVals.Nodup := by
  rw [saveProcessedData, if_pos h]
  exact Table.dedupByKey_keys_nodup t

/-- C6 witness: the saved admissions frame of the duplicated-key raw
extract has distinct keys. -/
theorem saveProcessedData_keys_nodup_witness :
    (saveProcessedData retC6).keyVals.Nodup :=
  saveProcessedData_keys_nodup retC6 (by decide)

theorem foldSet_frame (g : Table → String → Table) (columns : List String)
    (h1 : Heap) (j i : ℕ) (hij : i ≠ j) :
    (columns.foldl (fun hh c => hh.set j (g (hh.getD j Table.empty) c)) h1).getD i Table.empty
      = h1.getD i Table.empty := by
  induction columns generalizing h1 with
  | nil => rfl
  | cons c cs ih =>
    rw [List.foldl_cons, ih]
    simp [List.getD_eq_getElem?_getD, List.getElem?_set_ne (fun hx => hij hx.symm)]

theorem getD_append_left_of_lt (h : Heap) (x : Table) (i : ℕ) (hi : i < h.length) :
    (h ++ [x]).getD i Table.empty = h.getD i Table.empty := by
  simp [List.getD_eq_getElem?_getD, List.getElem?_append_left hi]

/-- C5: the field cleaners only write the fresh copy they allocate: after
`clean_numeric_columns` or `clean_text_columns`, the caller's frame reads
back unchanged, and the returned frame is a different slot. -/
theorem cleanColumns_frame (h : Heap) (i : ℕ) (columns : List String)
    (hi : i < h.length) :
    (cleanNumericColumnsH h i columns).1.getD i Table.empty = h.getD i Table.empty ∧
    (cleanNumericColumnsH h i columns).2 ≠ i ∧
    (cleanTextColumnsH h i columns).1.getD i Table.empty = h.getD i Table.empty ∧
    (cleanTextColumnsH h i columns).2 ≠ i := by
  have hne : i ≠ h.length := Nat.ne_of_lt hi
  refine ⟨?_, fun hx => hne hx.symm, ?_, fun hx => hne hx.symm⟩
  · rw [cleanNumericColumnsH, foldSet_frame cleanNumericCol columns _ _ _ hne,
      getD_append_left_of_lt h _ i hi]
  · rw [cleanTextColumnsH, foldSet_frame cleanTextCol columns _ _ _ hne,
      getD_append_left_of_lt h _ i hi]

/-- C5 witness: cleaning the numeric column APPLCN of the stored frame
leaves slot 0 unchanged and hands back slot 1. -/
theorem cleanColumns_frame_witness :
    (cleanNumericColumnsH heapW5 0 ["APPLCN"]).1.getD 0 Table.empty
        = heapW5.getD 0 Table.empty ∧
      (cleanNumericColumnsH heapW5 0 ["APPLCN"]).2 ≠ 0 ∧
      (cleanTextColumnsH heapW5 0 ["APPLCN"]).1.getD 0 Table.empty
        = heapW5.getD 0 Table.empty ∧
      (cleanTextColumnsH heapW5 0 ["APPLCN"]).2 ≠ 0 :=
  cleanColumns_frame heapW5 0 ["APPLCN"] (by decide)

theorem processAll_unfold (results : List (String × Except String Table)) :
    processAll results =
      (results.map (fun p => (p.1, (processOne p.1 p.2).1)),
        (results.map (fun p => (processOne p.1 p.2).2)).flatten) := by
  have key : ∀ (rs : List (String × Except String Table)) (acc : List (String × Table))
      (lg : List LogEvent),
      rs.foldl (fun a p =>
          let q := processOne p.1 p.2
          (a.1 ++ [(p.1, q.1)], a.2 ++ q.2)) (acc, lg) =
        (acc ++ rs.map (fun p => (p.1, (processOne p.1 p.2).1)),
          lg ++ (rs.map (fun p => (processOne p.1 p.2).2)).flatten) := by
    intro rs
    induction rs with
    | nil => intro acc lg; simp
    | cons p ps ih =>
      intro acc lg
      rw [List.foldl_cons, ih]
      simp
  have := key results [] []
  simpa [processAll] using this

/-- C8: a per-domain processor that raises is caught by the orchestrator:
its domain's contribution is the empty frame, the failure is logged, and
every other domain in the run is still processed (one output entry per
requested processor, in order). -/
theorem processAll_catches_failures (results : List (String × Except String Table))
    (n e : String) (hmem : (n, Except.error e) ∈ results) :
    (n, Table.empty) ∈ (processAll results).1 ∧
    (processAll results).1.length = results.length ∧
    LogEvent.processorFailed n e ∈ (processAll results).2 := by
  rw [processAll_unfold]
  refine ⟨?_, by simp, ?_⟩
  · have : ((n, Except.error e).1, (processOne (n, Except.error e).1 (n, Except.error e).2).1)
        ∈ results.map (fun p => (p.1, (processOne p.1 p.2).1)) :=
      List.mem_map_of_mem _ hmem
    simpa [processOne] using this
  · rw [List.mem_flatten]
    refine ⟨[LogEvent.processorFailed n e], ?_, List.mem_singleton.mpr rfl⟩
    have : ((processOne (n, Except.error e).1 (n, Except.error e).2).2)
        ∈ results.map (fun p => (processOne p.1 p.2).2) :=
      List.mem_map_of_mem _ hmem
    simpa [processOne] using this

/-- C8 witness: with admissions raising and enrollment succeeding, the
orchestrator records an empty admissions frame, keeps both entries and
logs the failure. -/
theorem processAll_catches_failures_witness :
    ("admissions", Table.empty) ∈ (processAll resultsW8).1 ∧
      (processAll resultsW8).1.length = resultsW8.length ∧
      LogEvent.processorFailed "admissions" "boom" ∈ (processAll resultsW8).2 :=
  processAll_catches_failures resultsW8 "admissions" "boom"
    (List.mem_cons_self _ _)

theorem getCell_append_no_key (lr extra : Row)
    (hex : ∀ p ∈ extra, p.1 ≠ "UNITID") :
    getCell (lr ++ extra) "UNITID" = getCell lr "UNITID" := by
  rw [getCell, getCell, List.lookup_append]
  have hnone : extra.lookup "UNITID" = none :=
    List.lookup_eq_none_iff.mpr (fun p hp => by simpa using (hex p hp).symm)
  rw [hnone, Option.or_none]

theorem filter_key_len_le_one (rrows : List Row) (k : Val)
    (hnd : (rrows.map keyOf).Nodup) :
    (rrows.filter (fun rr => keyOf rr == k)).length ≤ 1 := by
  induction rrows with
  | nil => simp
  | cons r rs ih =>
    rw [List.map_cons, List.nodup_cons] at hnd
    rw [List.filter_cons]
    split_ifs with hk
    · have hk2 : keyOf r = k := by simpa using hk
      have hnil : rs.filter (fun rr => keyOf rr == k) = [] := by
        rw [List.filter_eq_nil_iff]
        intro rr hrr hbeq
        have heq : keyOf rr = k := by simpa using hbeq
        have : keyOf r ∈ List.map keyOf rs := by
          rw [hk2, ← heq]
          exact List.mem_map_of_mem keyOf hrr
        exact hnd.1 this
      simp [hnil]
    · exact ih hnd.2

theorem keyOf_joinOneRow (lcols : List String) (rrows : List Row) (lr : Row)
    (hnd : (rrows.map keyOf).Nodup) (hK : lcols.contains "UNITID" = true) :
    (joinOneRow lcols rrows lr).map keyOf = [keyOf lr] := by
  rw [joinOneRow]
  by_cases hna : (keyOf lr).isna
  · simp [hna]
  · simp only [hna, Bool.false_eq_true, if_false]
    rcases hms : rrows.filter (fun rr => keyOf rr == keyOf lr) with _ | ⟨rr, rest⟩
    · simp
    · have hlen := filter_key_len_le_one rrows (keyOf lr) hnd
      rw [hms] at hlen
      have hrest : rest = [] := by
        cases rest with
        | nil => rfl
        | cons a b => simp at hlen
      subst hrest
      have hex : ∀ p ∈ rr.filter (fun p => !(lcols.contains p.1)), p.1 ≠ "UNITID" := by
        intro p hp hpu
        have hp2 := List.of_mem_filter hp
        rw [hpu, hK] at hp2
        simp at hp2
      simp only [List.map_cons, List.map_nil]
      rw [keyOf, getCell_append_no_key _ _ hex]
      rfl

theorem leftJoin_keyVals (l r : Table) (hnd : (r.rows.map keyOf).Nodup)
    (hK : l.cols.contains "UNITID" = true) :
    (l.leftJoin r).keyVals = l.keyVals := by
  show ((l.rows.map (joinOneRow l.cols r.rows)).flatten).map keyOf = l.rows.map keyOf
  induction l.rows with
  | nil => rfl
  | cons a as ih =>
    simp only [List.map_cons, List.flatten_cons, List.map_append, ih,
      keyOf_joinOneRow l.cols r.rows a hnd hK]
    rfl

theorem Table.keyVals_length (t : Table) : t.keyVals.length = t.rowCount :=
  List.length_map t.rows keyOf

theorem leftJoin_counts (l r : Table) (hnd : (r.rows.map keyOf).Nodup)
    (hK : l.cols.contains "UNITID" = true) :
    (l.leftJoin r).rowCount = l.rowCount ∧
    (l.leftJoin r).nuniqueKeys = l.nuniqueKeys ∧
    (l.leftJoin r).dupKeyCount = l.dupKeyCount := by
  have hkv := leftJoin_keyVals l r hnd hK
  have hlen : (l.leftJoin r).rowCount = l.rowCount := by
    rw [← Table.keyVals_length, ← Table.keyVals_length, hkv]
  refine ⟨hlen, ?_, ?_⟩
  · rw [Table.nuniqueKeys, Table.nuniqueKeys, hkv]
  · rw [Table.dupKeyCount, Table.dupKeyCount, hkv]
    have h1 : (l.leftJoin r).rows.length = (l.leftJoin r).rowCount := rfl
    have h2 : l.rows.length = l.rowCount := rfl
    rw [h1, h2, hlen]

/-- C1: whenever a merge step of the Unifier returns normally (the
incoming table deduplicated, left-joined by UNITID onto a
duplicate-free accumulator), the accumulator's row count and its
distinct-UNITID count are unchanged; the `ValueError` branches are the
only other exits, so a cardinality change never continues silently. -/
theorem mergeStep_cardinality (baseUnitids : List Val) (acc : Table) (name : String)
    (ds : Table) (hacc : acc.dupKeyCount = 0) (t : Table) (lg : List LogEvent)
    (h : mergeStep baseUnitids acc name ds = Except.ok (t, lg)) :
    t.rowCount = acc.rowCount ∧ t.nuniqueKeys = acc.nuniqueKeys := by
  by_cases h1 : "UNITID" ∈ ds.cols
  case neg =>
    have h1b : ds.cols.contains "UNITID" = false := by simpa using h1
    simp [mergeStep, h1, h1b] at h
  case pos =>
    by_cases h2 : "UNITID" ∈ acc.cols
    case neg =>
      have h1b : ds.cols.contains "UNITID" = true := by simpa using h1
      have h2b : acc.cols.contains "UNITID" = false := by simpa using h2
      simp [mergeStep, h1, h2, h1b, h2b] at h
    case pos =>
      have h1b : ds.cols.contains "UNITID" = true := by simpa using h1
      have h2b : acc.cols.contains "UNITID" = true := by simpa using h2
      have hnd : ((ds.dedupByKey).rows.map keyOf).Nodup :=
        Table.dedupByKey_keys_nodup ds
      obtain ⟨hrc, hnu, hdup⟩ := leftJoin_counts acc ds.dedupByKey hnd h2b
      simp only [mergeStep, h1, h2, h1b, h2b, if_true, hrc, hnu, hdup, hacc,
        bne_self_eq_false, Bool.false_eq_true, if_false, Nat.lt_irrefl,
        Bool.not_true, Except.ok.injEq, Prod.mk.injEq] at h
      obtain ⟨ht, _⟩ := h
      rw [← ht]
      exact ⟨hrc, hnu⟩

/-- C1 witness: the admissions merge step of the concrete scenario
returns normally and preserves both counts. -/
theorem mergeStep_cardinality_witness :
    mergeOutC1.rowCount = dirC9.rowCount ∧
      mergeOutC1.nuniqueKeys = dirC9.nuniqueKeys :=
  mergeStep_cardinality dirC9.keyVals.dedup dirC9 "admissions" admC9 (by decide)
    mergeOutC1 mergeLogC1 (by rfl)

theorem lookup_filter_ne_key (r : Row) (c c2 : String) (hne : c2 ≠ c) :
    (r.filter (fun p => p.1 != c)).lookup c2 = r.lookup c2 := by
  induction r with
  | nil => rfl
  | cons p ps ih =>
    rw [List.filter_cons]
    by_cases hp : p.1 = c
    · have hb : (p.1 != c) = false := by simpa using hp
      have hb2 : (c2 == p.1) = false := by
        simp only [beq_eq_false_iff_ne]
        rw [hp]
        exact hne
      rw [hb, if_neg (by simp), List.lookup_cons, hb2, ih]
    · have hb : (p.1 != c) = true := by simpa using hp
      rw [hb, if_pos rfl, List.lookup_cons, List.lookup_cons]
      cases hq : c2 == p.1
      · exact ih
      · rfl

theorem getCell_setCell_self (r : Row) (c : String) (v : Val) :
    getCell (setCell r c v) c = v := by
  rw [setCell, getCell, List.lookup_append]
  have hnone : (r.filter (fun p => p.1 != c)).lookup c = none := by
    rw [List.lookup_eq_none_iff]
    intro p hp
    have h2 : p.1 ≠ c := by simpa using List.of_mem_filter hp
    simpa using Ne.symm h2
  rw [hnone, Option.none_or, List.lookup_cons_self]
  rfl

theorem getCell_setCell_ne (r : Row) (c c2 : String) (v : Val) (hne : c2 ≠ c) :
    getCell (setCell r c v) c2 = getCell r c2 := by
  rw [setCell, getCell, getCell, List.lookup_append]
  have h2 : ([(c, v)] : Row).lookup c2 = none := by
    rw [List.lookup_cons]
    have : (c2 == c) = false := by simpa using hne
    rw [this]
    rfl
  rw [lookup_filter_ne_key r c c2 hne, h2, Option.or_none]

theorem rows_length_setCol (t : Table) (c : String) (f : Row → Val) :
    (t.setCol c f).rows.length = t.rows.length :=
  List.length_map t.rows _

theorem getD_rows_setCol (t : Table) (c : String) (f : Row → Val) (i : ℕ)
    (hi : i < t.rows.length) :
    (t.setCol c f).rows.getD i [] =
      setCell (t.rows.getD i []) c (f (t.rows.getD i [])) := by
  set r0 := t.rows.getD i [] with hr0
  have hx : t.rows[i]? = some r0 := by
    rw [hr0, List.getD_eq_getElem?_getD]
    cases hy : t.rows[i]? with
    | none =>
        exact absurd (List.getElem?_eq_none_iff.mp hy) (Nat.not_le.mpr hi)
    | some r => rfl
  show (t.rows.map (fun r => setCell r c (f r))).getD i [] = setCell r0 c (f r0)
  rw [List.getD_eq_getElem?_getD, List.getElem?_map, hx]
  rfl

theorem contains_addColName (cs : List String) (c c2 : String) :
    (addColName cs c).contains c2 = (cs.contains c2 || (c2 == c)) := by
  rw [addColName]
  split_ifs with h
  · by_cases h2 : c2 = c
    · subst h2
      have hc : cs.contains c2 = true := by simpa using h
      rw [hc, Bool.true_or]
    · have hb : (c2 == c) = false := by simpa using h2
      rw [hb, Bool.or_false]
  · by_cases h2 : c2 = c
    · subst h2
      have hl : (cs ++ [c2]).contains c2 = true := by
        simp
      have hr : (c2 == c2) = true := beq_self_eq_true c2
      rw [hl, hr, Bool.or_true]
    · have hb : (c2 == c) = false := by simpa using h2
      rw [hb, Bool.or_false]
      cases hm : cs.contains c2
      · have hnm : c2 ∉ cs := by simpa using hm
        have hno : c2 ∉ cs ++ [c] := by
          rw [List.mem_append]
          rintro (hx | hx)
          · exact hnm hx
          · exact h2 (List.mem_singleton.mp hx)
        simpa using hno
      · have hmem : c2 ∈ cs := by simpa using hm
        have hyes : c2 ∈ cs ++ [c] := List.mem_append_left _ hmem
        simpa using hyes

theorem setCol_contains_other (t : Table) (c c2 : String) (f : Row → Val)
    (hb : (c2 == c) = false) :
    (t.setCol c f).cols.contains c2 = t.cols.contains c2 := by
  show (addColName t.cols c).contains c2 = t.cols.contains c2
  rw [contains_addColName, hb, Bool.or_false]

theorem addV_num_num (x y : Flt) : (Val.num x).addV (Val.num y) = Val.num (x.add y) := rfl

theorem subV_num_num (x y : Flt) : (Val.num x).subV (Val.num y) = Val.num (x.sub y) := rfl

theorem divV_num_num (x y : Flt) (hy : y.n ≠ 0) :
    (Val.num x).divV (Val.num y) = Val.num (x.div y) := by
  simp [Val.divV, Val.numClass, hy]

theorem clip01_num (z : Flt) :
    ∃ x, Val.clip (fl 0) (fl 1) (Val.num z) = Val.num x ∧ 0 ≤ x.toRat ∧ x.toRat ≤ 1 := by
  have h0 : (fl 0).toRat = 0 := by norm_num [fl, Flt.toRat]
  have h1 : (fl 1).toRat = 1 := by norm_num [fl, Flt.toRat]
  by_cases ha : z.lt (fl 0)
  · refine ⟨fl 0, by simp [Val.clip, Val.numClass, ha], ?_, ?_⟩
    · rw [h0]
    · rw [h0]; norm_num
  · by_cases hb : (fl 1).lt z
    · refine ⟨fl 1, by simp [Val.clip, Val.numClass, ha, hb], ?_, ?_⟩
      · rw [h1]; norm_num
      · rw [h1]
    · refine ⟨z, by simp [Val.clip, Val.numClass, ha, hb], ?_, ?_⟩
      · rw [Flt.lt_iff, h0] at ha
        exact not_lt.mp ha
      · rw [Flt.lt_iff, h1] at hb
        exact not_lt.mp hb

theorem accCompetitiveness_bounds (r : Row)
    (h : accRateOK (getCell r "acceptance_rate")) :
    ∃ x, accCompetitiveness r = Val.num x ∧ 0 ≤ x.toRat ∧ x.toRat ≤ 1 := by
  have h100 : (fl 100).n ≠ 0 := by norm_num [fl]
  have key : ∀ y : Flt, 0 ≤ y.toRat → y.toRat ≤ 100 →
      ∃ x, ((Val.num (fl 100)).subV (Val.num y)).divV (Val.num (fl 100)) = Val.num x ∧
        0 ≤ x.toRat ∧ x.toRat ≤ 1 := by
    intro y hy0 hy1
    refine ⟨((fl 100).sub y).div (fl 100), ?_, ?_, ?_⟩
    · rw [subV_num_num, divV_num_num _ _ h100]
    · rw [Flt.toRat_div _ _ h100, Flt.toRat_sub, Flt.toRat_fl]
      apply div_nonneg
      · push_cast
        linarith
      · push_cast
        norm_num
    · rw [Flt.toRat_div _ _ h100, Flt.toRat_sub, Flt.toRat_fl]
      rw [div_le_one (by push_cast; norm_num)]
      push_cast
      linarith
  rcases h with hna | ⟨y, hy, hy0, hy1⟩
  · obtain ⟨x, hx, hb⟩ := key (fl 50) (by norm_num [fl, Flt.toRat]) (by norm_num [fl, Flt.toRat])
    exact ⟨x, by rw [accCompetitiveness, hna]; exact hx, hb⟩
  · obtain ⟨x, hx, hb⟩ := key y hy0 hy1
    exact ⟨x, by rw [accCompetitiveness, hy]; exact hx, hb⟩

theorem satCompetitiveness_bounds (r : Row)
    (h : cellNaOrNum (getCell r "sat_total_75")) :
    ∃ x, satCompetitiveness r = Val.num x ∧ 0 ≤ x.toRat ∧ x.toRat ≤ 1 := by
  have h800 : (fl 800).n ≠ 0 := by norm_num [fl]
  rcases h with hna | ⟨y, hy⟩
  · have he : satCompetitiveness r =
        Val.clip (fl 0) (fl 1) (Val.num (((fl 1000).sub (fl 800)).div (fl 800))) := by
      rw [satCompetitiveness, hna]
      rw [show (Val.na.fillna (fl 1000)) = Val.num (fl 1000) from rfl,
        subV_num_num, divV_num_num _ _ h800]
    rw [he]
    exact clip01_num _
  · have he : satCompetitiveness r =
        Val.clip (fl 0) (fl 1) (Val.num ((y.sub (fl 800)).div (fl 800))) := by
      rw [satCompetitiveness, hy]
      rw [show ((Val.num y).fillna (fl 1000)) = Val.num y from rfl,
        subV_num_num, divV_num_num _ _ h800]
    rw [he]
    exact clip01_num _

theorem actCompetitiveness_bounds (r : Row)
    (h : cellNaOrNum (getCell r "ACTCM75")) :
    ∃ x, actCompetitiveness r = Val.num x ∧ 0 ≤ x.toRat ∧ x.toRat ≤ 1 := by
  have h21 : (fl 21).n ≠ 0 := by norm_num [fl]
  rcases h with hna | ⟨y, hy⟩
  · have he : actCompetitiveness r =
        Val.clip (fl 0) (fl 1) (Val.num (((fl 20).sub (fl 15)).div (fl 21))) := by
      rw [actCompetitiveness, hna]
      rw [show (Val.na.fillna (fl 20)) = Val.num (fl 20) from rfl,
        subV_num_num, divV_num_num _ _ h21]
    rw [he]
    exact clip01_num _
  · have he : actCompetitiveness r =
        Val.clip (fl 0) (fl 1) (Val.num ((y.sub (fl 15)).div (fl 21))) := by
      rw [actCompetitiveness, hy]
      rw [show ((Val.num y).fillna (fl 20)) = Val.num y from rfl,
        subV_num_num, divV_num_num _ _ h21]
    rw [he]
    exact clip01_num _

theorem foldl_addV_bounds (vs : List Val) (init : Flt)
    (h : ∀ v ∈ vs, ∃ x, v = Val.num x ∧ 0 ≤ x.toRat ∧ x.toRat ≤ 1) :
    ∃ s, vs.foldl Val.addV (Val.num init) = Val.num s ∧
      init.toRat ≤ s.toRat ∧ s.toRat ≤ init.toRat + vs.length := by
  induction vs generalizing init with
  | nil => exact ⟨init, rfl, le_refl _, by simp⟩
  | cons v vs ih =>
    obtain ⟨x, hx, hx0, hx1⟩ := h v (List.mem_cons_self _ _)
    obtain ⟨s, hs, hs0, hs1⟩ := ih (init.add x) (fun w hw => h w (List.mem_cons_of_mem _ hw))
    have hadd := Flt.toRat_add init x
    refine ⟨s, ?_, ?_, ?_⟩
    · rw [List.foldl_cons, hx, addV_num_num, hs]
    · rw [hadd] at hs0
      linarith
    · rw [hadd] at hs1
      rw [List.length_cons]
      push_cast
      linarith

theorem meanVals_roundV_bounds (vs : List Val)
    (h : ∀ v ∈ vs, ∃ x, v = Val.num x ∧ 0 ≤ x.toRat ∧ x.toRat ≤ 1)
    (hne : vs ≠ []) :
    ∃ x, Val.roundV 3 (meanVals vs) = Val.num x ∧ 0 ≤ x.toRat ∧ x.toRat ≤ 1 := by
  have hfilter : vs.filter (fun v => !v.isna) = vs := by
    rw [List.filter_eq_self]
    intro v hv
    obtain ⟨x, hx, _⟩ := h v hv
    rw [hx]
    rfl
  obtain ⟨s, hs, hs0, hs1⟩ := foldl_addV_bounds vs (fl 0) h
  have hlenpos : 0 < vs.length := List.length_pos.mpr hne
  have hlen : (fl (vs.length : ℤ)).n ≠ 0 := by
    simp only [fl]
    omega
  have hempty : vs.isEmpty = false := by
    cases vs
    · exact absurd rfl hne
    · rfl
  have hmean : meanVals vs = Val.num (s.div (fl (vs.length : ℤ))) := by
    rw [meanVals]
    simp only [hfilter, hempty, Bool.false_eq_true, if_false, hs,
      divV_num_num _ _ hlen]
  have h0 : (fl 0).toRat = 0 := by norm_num [fl, Flt.toRat]
  rw [h0] at hs0 hs1
  have hlq : (0 : ℚ) < ((vs.length : ℤ) : ℚ) := by exact_mod_cast hlenpos
  have hltor : (fl (vs.length : ℤ)).toRat = ((vs.length : ℤ) : ℚ) := Flt.toRat_fl _
  have hm0 : 0 ≤ (s.div (fl (vs.length : ℤ))).toRat := by
    rw [Flt.toRat_div _ _ hlen, hltor]
    exact div_nonneg hs0 hlq.le
  have hm1 : (s.div (fl (vs.length : ℤ))).toRat ≤ 1 := by
    rw [Flt.toRat_div _ _ hlen, hltor, div_le_one hlq]
    push_cast
    linarith
  rw [hmean]
  obtain ⟨hb0, hb1⟩ := Flt.roundTo_bounds (s.div (fl (vs.length : ℤ))) 3 hm0 hm1
  exact ⟨(s.div (fl (vs.length : ℤ))).roundTo 3, rfl, hb0, hb1⟩

theorem subScores_bounds (bA bS bT : Bool) (r0 : Row)
    (hAcc : accRateOK (getCell r0 "acceptance_rate"))
    (hSat : cellNaOrNum (getCell r0 "sat_total_75"))
    (hAct : cellNaOrNum (getCell r0 "ACTCM75")) :
    ∀ v ∈ subScores bA bS bT r0, ∃ x, v = Val.num x ∧ 0 ≤ x.toRat ∧ x.toRat ≤ 1 := by
  intro v hv
  rw [subScores, List.mem_append, List.mem_append] at hv
  have hsingle : ∀ (b : Bool) (f : Row → Val),
      v ∈ (if b then [f r0] else []) → v = f r0 := by
    intro b f hvb
    cases b
    · simp at hvb
    · simpa using hvb
  rcases hv with (hv | hv) | hv
  · obtain ⟨x, hx, hb⟩ := accCompetitiveness_bounds r0 hAcc
    exact ⟨x, (hsingle bA _ hv).symm ▸ hx, hb⟩
  · obtain ⟨x, hx, hb⟩ := satCompetitiveness_bounds r0 hSat
    exact ⟨x, (hsingle bS _ hv).symm ▸ hx, hb⟩
  · obtain ⟨x, hx, hb⟩ := actCompetitiveness_bounds r0 hAct
    exact ⟨x, (hsingle bT _ hv).symm ▸ hx, hb⟩

theorem satCompetitiveness_setCell (r : Row) (c : String) (v : Val)
    (hne : "sat_total_75" ≠ c) :
    satCompetitiveness (setCell r c v) = satCompetitiveness r := by
  rw [satCompetitiveness, satCompetitiveness, getCell_setCell_ne r c _ v hne]

theorem actCompetitiveness_setCell (r : Row) (c : String) (v : Val)
    (hne : "ACTCM75" ≠ c) :
    actCompetitiveness (setCell r c v) = actCompetitiveness r := by
  rw [actCompetitiveness, actCompetitiveness, getCell_setCell_ne r c _ v hne]

/-- C7 (amended): the SAT and ACT sub-scores are clipped to [0,1] but the
acceptance sub-score `(100 - rate.fillna(50))/100` is not; the
competitiveness score is the rounded mean of the available sub-scores and
lies in [0,1] whenever the acceptance rate is missing or between 0
and 100 (the counterexample shows it escapes [0,1] otherwise). -/
theorem competitivenessScore_bounds (df : Table) (i : ℕ) (hi : i < df.rows.length)
    (hAcc : accRateOK (getCell (df.rows.getD i []) "acceptance_rate"))
    (hSat : cellNaOrNum (getCell (df.rows.getD i []) "sat_total_75"))
    (hAct : cellNaOrNum (getCell (df.rows.getD i []) "ACTCM75"))
    (hany : df.cols.contains "acceptance_rate" = true ∨
      df.cols.contains "sat_total_75" = true ∨ df.cols.contains "ACTCM75" = true) :
    ∃ x, getCell ((addUnifiedDerivedFields df).rows.getD i []) "competitiveness_score"
        = Val.num x ∧ 0 ≤ x.toRat ∧ x.toRat ≤ 1 := by
  have li1 : ∀ (c : String) (f : Row → Val), i < (df.setCol c f).rows.length := by
    intro c f
    rw [rows_length_setCol]
    exact hi
  have li2 : ∀ (c c2 : String) (f f2 : Row → Val),
      i < ((df.setCol c f).setCol c2 f2).rows.length := by
    intro c c2 f f2
    rw [rows_length_setCol]
    exact li1 c f
  have li3 : ∀ (c c2 c3 : String) (f f2 f3 : Row → Val),
      i < (((df.setCol c f).setCol c2 f2).setCol c3 f3).rows.length := by
    intro c c2 c3 f f2 f3
    rw [rows_length_setCol]
    exact li2 c c2 f f2
  cases hA : df.cols.contains "acceptance_rate" <;>
    cases hS : df.cols.contains "sat_total_75" <;>
      cases hT : df.cols.contains "ACTCM75"
  · rcases hany with h | h | h
    · rw [hA] at h; exact Bool.noConfusion h
    · rw [hS] at h; exact Bool.noConfusion h
    · rw [hT] at h; exact Bool.noConfusion h
  · -- only ACTCM75
    simp only [addUnifiedDerivedFields, hA, hS, hT, competitivenessFactors,
      Bool.false_eq_true, if_false, if_true, List.nil_append, List.append_nil,
      List.cons_append, List.singleton_append, List.isEmpty_cons,
      List.map_cons, List.map_nil]
    rw [getD_rows_setCol _ _ _ _ (li1 _ _), getCell_setCell_self]
    try simp only [List.map_cons, List.map_nil]
    rw [getD_rows_setCol _ _ _ _ hi, getCell_setCell_self]
    exact meanVals_roundV_bounds (subScores false false true (df.rows.getD i []))
      (subScores_bounds false false true _ hAcc hSat hAct) (List.cons_ne_nil _ _)
  · -- only sat_total_75
    have hT1 : (df.setCol "sat_competitiveness" satCompetitiveness).cols.contains
        "ACTCM75" = false := by
      rw [setCol_contains_other _ _ _ _ (by decide), hT]
    simp only [addUnifiedDerivedFields, hA, hS, hT1, competitivenessFactors,
      Bool.false_eq_true, if_false, if_true, List.nil_append, List.append_nil,
      List.cons_append, List.singleton_append, List.isEmpty_cons,
      List.map_cons, List.map_nil]
    rw [getD_rows_setCol _ _ _ _ (li1 _ _), getCell_setCell_self]
    try simp only [List.map_cons, List.map_nil]
    rw [getD_rows_setCol _ _ _ _ hi, getCell_setCell_self]
    exact meanVals_roundV_bounds (subScores false true false (df.rows.getD i []))
      (subScores_bounds false true false _ hAcc hSat hAct) (List.cons_ne_nil _ _)
  · -- sat_total_75 and ACTCM75
    have hT1 : (df.setCol "sat_competitiveness" satCompetitiveness).cols.contains
        "ACTCM75" = true := by
      rw [setCol_contains_other _ _ _ _ (by decide), hT]
    simp only [addUnifiedDerivedFields, hA, hS, hT1, competitivenessFactors,
      Bool.false_eq_true, if_false, if_true, List.nil_append, List.append_nil,
      List.cons_append, List.singleton_append, List.isEmpty_cons,
      List.map_cons, List.map_nil]
    rw [getD_rows_setCol _ _ _ _ (li2 _ _ _ _), getCell_setCell_self]
    try simp only [List.map_cons, List.map_nil]
    rw [getD_rows_setCol _ _ _ _ (li1 _ _)]
    rw [getCell_setCell_ne _ _ _ _ (by decide :
      "sat_competitiveness" ≠ "act_competitiveness"), getCell_setCell_self]
    rw [getD_rows_setCol _ _ _ _ hi, getCell_setCell_self]
    rw [actCompetitiveness_setCell _ _ _ (by decide)]
    exact meanVals_roundV_bounds (subScores false true true (df.rows.getD i []))
      (subScores_bounds false true true _ hAcc hSat hAct) (List.cons_ne_nil _ _)
  · -- only acceptance_rate
    have hS1 : (df.setCol "acceptance_competitiveness" accCompetitiveness).cols.contains
        "sat_total_75" = false := by
      rw [setCol_contains_other _ _ _ _ (by decide), hS]
    have hT1 : (df.setCol "acceptance_competitiveness" accCompetitiveness).cols.contains
        "ACTCM75" = false := by
      rw [setCol_contains_other _ _ _ _ (by decide), hT]
    simp only [addUnifiedDerivedFields, hA, hS1, hT1, competitivenessFactors,
      Bool.false_eq_true, if_false, if_true, List.nil_append, List.append_nil,
      List.cons_append, List.singleton_append, List.isEmpty_cons,
      List.map_cons, List.map_nil]
    rw [getD_rows_setCol _ _ _ _ (li1 _ _), getCell_setCell_self]
    try simp only [List.map_cons, List.map_nil]
    rw [getD_rows_setCol _ _ _ _ hi, getCell_setCell_self]
    exact meanVals_roundV_bounds (subScores true false false (df.rows.getD i []))
      (subScores_bounds true false false _ hAcc hSat hAct) (List.cons_ne_nil _ _)
  · -- acceptance_rate and ACTCM75
    have hS1 : (df.setCol "acceptance_competitiveness" accCompetitiveness).cols.contains
        "sat_total_75" = false := by
      rw [setCol_contains_other _ _ _ _ (by decide), hS]
    have hT1 : (df.setCol "acceptance_competitiveness" accCompetitiveness).cols.contains
        "ACTCM75" = true := by
      rw [setCol_contains_other _ _ _ _ (by decide), hT]
    simp only [addUnifiedDerivedFields, hA, hS1, hT1, competitivenessFactors,
      Bool.false_eq_true, if_false, if_true, List.nil_append, List.append_nil,
      List.cons_append, List.singleton_append, List.isEmpty_cons,
      List.map_cons, List.map_nil]
    rw [getD_rows_setCol _ _ _ _ (li2 _ _ _ _), getCell_setCell_self]
    try simp only [List.map_cons, List.map_nil]
    rw [getD_rows_setCol _ _ _ _ (li1 _ _)]
    rw [getCell_setCell_ne _ _ _ _ (by decide :
      "acceptance_competitiveness" ≠ "act_competitiveness"), getCell_setCell_self]
    rw [getD_rows_setCol _ _ _ _ hi, getCell_setCell_self]
    rw [actCompetitiveness_setCell _ _ _ (by decide)]
    exact meanVals_roundV_bounds (subScores true false true (df.rows.getD i []))
      (subScores_bounds true false true _ hAcc hSat hAct) (List.cons_ne_nil _ _)
  · -- acceptance_rate and sat_total_75
    have hS1 : (df.setCol "acceptance_competitiveness" accCompetitiveness).cols.contains
        "sat_total_75" = true := by
      rw [setCol_contains_other _ _ _ _ (by decide), hS]
    have hT1 : ((df.setCol "acceptance_competitiveness" accCompetitiveness).setCol
        "sat_competitiveness" satCompetitiveness).cols.contains "ACTCM75" = false := by
      rw [setCol_contains_other _ _ _ _ (by decide),
        setCol_contains_other _ _ _ _ (by decide), hT]
    simp only [addUnifiedDerivedFields, hA, hS1, hT1, competitivenessFactors,
      Bool.false_eq_true, if_false, if_true, List.nil_append, List.append_nil,
      List.cons_append, List.singleton_append, List.isEmpty_cons,
      List.map_cons, List.map_nil]
    rw [getD_rows_setCol _ _ _ _ (li2 _ _ _ _), getCell_setCell_self]
    try simp only [List.map_cons, List.map_nil]
    rw [getD_rows_setCol _ _ _ _ (li1 _ _)]
    rw [getCell_setCell_ne _ _ _ _ (by decide :
      "acceptance_competitiveness" ≠ "sat_competitiveness"), getCell_setCell_self]
    rw [getD_rows_setCol _ _ _ _ hi, getCell_setCell_self]
    rw [satCompetitiveness_setCell _ _ _ (by decide)]
    exact meanVals_roundV_bounds (subScores true true false (df.rows.getD i []))
      (subScores_bounds true true false _ hAcc hSat hAct) (List.cons_ne_nil _ _)
  · -- all three
    have hS1 : (df.setCol "acceptance_competitiveness" accCompetitiveness).cols.contains
        "sat_total_75" = true := by
      rw [setCol_contains_other _ _ _ _ (by decide), hS]
    have hT1 : ((df.setCol "acceptance_competitiveness" accCompetitiveness).setCol
        "sat_competitiveness" satCompetitiveness).cols.contains "ACTCM75" = true := by
      rw [setCol_contains_other _ _ _ _ (by decide),
        setCol_contains_other _ _ _ _ (by decide), hT]
    simp only [addUnifiedDerivedFields, hA, hS1, hT1, competitivenessFactors,
      Bool.false_eq_true, if_false, if_true, List.nil_append, List.append_nil,
      List.cons_append, List.singleton_append, List.isEmpty_cons,
      List.map_cons, List.map_nil]
    rw [getD_rows_setCol _ _ _ _ (li3 _ _ _ _ _ _), getCell_setCell_self]
    try simp only [List.map_cons, List.map_nil]
    rw [getD_rows_setCol _ _ _ _ (li2 _ _ _ _)]
    rw [getCell_setCell_ne _ _ _ _ (by decide :
      "acceptance_competitiveness" ≠ "act_competitiveness")]
    rw [getCell_setCell_ne _ _ _ _ (by decide :
      "sat_competitiveness" ≠ "act_competitiveness"), getCell_setCell_self]
    rw [getD_rows_setCol _ _ _ _ (li1 _ _)]
    rw [getCell_setCell_ne _ _ _ _ (by decide :
      "acceptance_competitiveness" ≠ "sat_competitiveness"), getCell_setCell_self]
    rw [getD_rows_setCol _ _ _ _ hi, getCell_setCell_self]
    rw [satCompetitiveness_setCell _ _ _ (by decide)]
    rw [actCompetitiveness_setCell _ _ _ (by decide),
      actCompetitiveness_setCell _ _ _ (by decide)]
    exact meanVals_roundV_bounds (subScores true true true (df.rows.getD i []))
      (subScores_bounds true true true _ hAcc hSat hAct) (List.cons_ne_nil _ _)

/-- C7 counterexample: with an acceptance rate of 200 percent as the only
input, the competitiveness score is -1, outside [0,1]: the acceptance
sub-score is not clipped before averaging. -/
theorem competitivenessScore_not_clipped :
    getCell ((addUnifiedDerivedFields tC7).rows.getD 0 []) "competitiveness_score"
        = Val.num ⟨-1000, 1000⟩ ∧
      (⟨-1000, 1000⟩ : Flt).toRat < 0 :=
  ⟨by decide, by norm_num [Flt.toRat]⟩

/-- C7 witness: an ordinary 50 percent acceptance rate gives a
competitiveness score inside [0,1]. -/
theorem competitivenessScore_bounds_witness :
    ∃ x, getCell ((addUnifiedDerivedFields tW7).rows.getD 0 []) "competitiveness_score"
        = Val.num x ∧ 0 ≤ x.toRat ∧ x.toRat ≤ 1 :=
  competitivenessScore_bounds tW7 0 (by decide)
    (Or.inr ⟨fl 50, by decide, by norm_num [fl, Flt.toRat], by norm_num [fl, Flt.toRat]⟩)
    (Or.inl (by decide)) (Or.inl (by decide)) (Or.inl (by decide))

end IPEDS
